import Mathlib

/-!
# Rotary delta inverse kinematics

A shallow embedding of `klippy/chelper/kin_rotary_delta.c` and the properties of its
solver.

Modelling conventions.
* A C `double` is an exact real number.  The rounding of IEEE arithmetic is not modelled.
* An operation whose IEEE result is not a number is undefined: `1. / 0` and the square
  root of a negative number give `none`, and `none` propagates through every later
  operation, as NaN does.  A local variable of the solver that depends on such an
  operation therefore has type `Option ℝ`.
* `atan2 y x` is the principal argument of the point `(x, y)`, in `(-π, π]`, and `0` at
  the origin.

Scope of the results.  The theorems labelled `C1` to `C16` are those that rounding
leaves alone or moves in the last bit only: stored fields, propagation of an undefined
value, symmetries that binary64 operations keep exactly, and values at well-conditioned
inputs.  Theorems whose comment starts
`Exact arithmetic only` are identities between quantities the code rounds (the elbow
constraints, the sign of the discriminant against reachability, the maximal root, the
round trip); they describe the formulas of lines 34-46 over the reals and are not
properties of the binary64 code, which next to full extension can compute a discriminant
of the other sign and for small `sjy` loses line 44 to cancellation.
-/

namespace RotaryDelta

/-! ## Arithmetic of the C library -/

/-- Division `a / b` of doubles: undefined when the divisor is zero. -/
noncomputable def fdiv (a b : ℝ) : Option ℝ :=
  if b = 0 then none else some (a / b)

/-- The `sqrt` of `math.h`: undefined on a negative argument. -/
noncomputable def sqrt (a : ℝ) : Option ℝ :=
  if a < 0 then none else some (Real.sqrt a)

/-- The `atan2` of `math.h`: the angle of the point `(x, y)` seen from the origin. -/
noncomputable def atan2 (y x : ℝ) : ℝ :=
  Complex.arg ⟨x, y⟩

/-! ## Data model -/

/-- Cartesian position, `struct coord`. -/
structure coord where
  x : ℝ
  y : ℝ
  z : ℝ

/-- Modelled from the spec: `struct move` (trapq.h) is not among the sources; a move
segment is "a trajectory piece whose Cartesian position at any time within its validity
window can be sampled". -/
structure move where
  position : ℝ → coord

/-- Modelled from the spec: `move_get_coord` (trapq.h) is not among the sources; it
"returns the Cartesian (x, y, z) position at that time". -/
def move_get_coord (m : move) (move_time : ℝ) : coord :=
  m.position move_time

/-- Modelled from the spec: the axis flags of itersolve.h are not among the sources; they
form "a bitmask of Cartesian axes", one bit per axis. -/
def AF_X : Nat := 1

/-- Modelled from the spec: the axis flags of itersolve.h are not among the sources; they
form "a bitmask of Cartesian axes", one bit per axis. -/
def AF_Y : Nat := 2

/-- Modelled from the spec: the axis flags of itersolve.h are not among the sources; they
form "a bitmask of Cartesian axes", one bit per axis. -/
def AF_Z : Nat := 4

/-- The functions a `calc_position_cb` pointer of this file can point to. -/
inductive position_callback where
  | rotary_stepper_calc_position
  deriving DecidableEq

/-- Modelled from the spec: `struct stepper_kinematics` (itersolve.h) is not among the
sources; it is the handle "exposing (a) the position-calculation operation and (b) a
bitmask of Cartesian axes that influence this stepper".  A null callback is `none`. -/
structure stepper_kinematics where
  calc_position_cb : Option position_callback
  active_flags : Nat

/-- Per-arm geometry, `struct rotary_stepper`. -/
structure rotary_stepper where
  sk : stepper_kinematics
  cos : ℝ
  sin : ℝ
  shoulder_radius : ℝ
  shoulder_height : ℝ
  upper_arm2 : ℝ
  arm2_diff : ℝ

/-! ## The solver, `rotary_stepper_calc_position`

One definition per local variable of the C function, in the order of the source. -/

/-- Line 34: `sjz = c.y * rs->cos - c.x * rs->sin`. -/
def sjz (rs : rotary_stepper) (c : coord) : ℝ :=
  c.y * rs.cos - c.x * rs.sin

/-- Line 35: `sjx = c.x * rs->cos + c.y * rs->sin - rs->shoulder_radius`. -/
def sjx (rs : rotary_stepper) (c : coord) : ℝ :=
  c.x * rs.cos + c.y * rs.sin - rs.shoulder_radius

/-- Line 36: `sjy = c.z - rs->shoulder_height`. -/
def sjy (rs : rotary_stepper) (c : coord) : ℝ :=
  c.z - rs.shoulder_height

/-- Line 38: `inv_sjy = 1. / sjy`. -/
noncomputable def inv_sjy (rs : rotary_stepper) (c : coord) : Option ℝ :=
  fdiv 1 (sjy rs c)

/-- Line 39: `c1 = .5 * inv_sjy * (sjx*sjx + sjy*sjy + sjz*sjz + rs->arm2_diff)`. -/
noncomputable def c1 (rs : rotary_stepper) (c : coord) : Option ℝ :=
  (inv_sjy rs c).map fun i =>
    0.5 * i * (sjx rs c * sjx rs c + sjy rs c * sjy rs c + sjz rs c * sjz rs c + rs.arm2_diff)

/-- Line 40: `c2 = sjx * inv_sjy`. -/
noncomputable def c2 (rs : rotary_stepper) (c : coord) : Option ℝ :=
  (inv_sjy rs c).map fun i => sjx rs c * i

/-- Line 42: `scale = c2*c2 + 1.0`. -/
noncomputable def scale (rs : rotary_stepper) (c : coord) : Option ℝ :=
  (c2 rs c).map fun k2 => k2 * k2 + 1.0

/-- Line 43, the argument of the square root: `scale*rs->upper_arm2 - c1*c1`. -/
noncomputable def discriminant (rs : rotary_stepper) (c : coord) : Option ℝ :=
  (scale rs c).bind fun s => (c1 rs c).map fun k1 => s * rs.upper_arm2 - k1 * k1

/-- Line 43: `sj_scaled_elbow_x = c1*c2 + sqrt(scale*rs->upper_arm2 - c1*c1)`. -/
noncomputable def sj_scaled_elbow_x (rs : rotary_stepper) (c : coord) : Option ℝ :=
  (c1 rs c).bind fun k1 => (c2 rs c).bind fun k2 =>
    ((discriminant rs c).bind sqrt).map fun r => k1 * k2 + r

/-- Line 44: `sj_scaled_elbow_y = c1*scale - c2*sj_scaled_elbow_x`. -/
noncomputable def sj_scaled_elbow_y (rs : rotary_stepper) (c : coord) : Option ℝ :=
  (c1 rs c).bind fun k1 => (scale rs c).bind fun s => (c2 rs c).bind fun k2 =>
    (sj_scaled_elbow_x rs c).map fun ex => k1 * s - k2 * ex

/-- The position callback: samples the move at `move_time` and returns
`atan2(sj_scaled_elbow_y, sj_scaled_elbow_x)` (line 46), or `none` when that is not a
number. -/
noncomputable def rotary_stepper_calc_position (rs : rotary_stepper) (m : move)
    (move_time : ℝ) : Option ℝ :=
  let c := move_get_coord m move_time
  (sj_scaled_elbow_y rs c).bind fun ey => (sj_scaled_elbow_x rs c).map fun ex => atan2 ey ex

/-! ## Construction, `rotary_delta_stepper_alloc` -/

/-- The record after `memset(rs, 0, sizeof(*rs))`. -/
def zeroed : rotary_stepper :=
  { sk := { calc_position_cb := none, active_flags := 0 }
    cos := 0, sin := 0, shoulder_radius := 0, shoulder_height := 0
    upper_arm2 := 0, arm2_diff := 0 }

/-- Lines 53-63: the zeroed record with its fields assigned in the order of the source. -/
noncomputable def rotary_delta_stepper_alloc (shoulder_radius shoulder_height angle upper_arm
    lower_arm : ℝ) : rotary_stepper :=
  let rs := zeroed
  let rs := { rs with cos := Real.cos angle }
  let rs := { rs with sin := Real.sin angle }
  let rs := { rs with shoulder_radius := shoulder_radius }
  let rs := { rs with shoulder_height := shoulder_height }
  let rs := { rs with upper_arm2 := upper_arm * upper_arm }
  let rs := { rs with arm2_diff := rs.upper_arm2 - lower_arm * lower_arm }
  let rs := { rs with sk := { rs.sk with
    calc_position_cb := some position_callback.rotary_stepper_calc_position } }
  let rs := { rs with sk := { rs.sk with active_flags := AF_X ||| AF_Y ||| AF_Z } }
  rs

/-! ## Rotation of a target about the z axis -/

/-- The point `c` mirrored through the horizontal plane `z = h`. -/
def mirror_z (h : ℝ) (c : coord) : coord :=
  ⟨c.x, c.y, 2 * h - c.z⟩

/-- The move whose every sampled position is that of `m`, mirrored through `z = h`. -/
def move_mirror_z (h : ℝ) (m : move) : move :=
  ⟨fun move_time => mirror_z h (m.position move_time)⟩

/-- The point `c` mirrored through the vertical plane `y = 0`. -/
def mirror_y (c : coord) : coord :=
  ⟨c.x, -c.y, c.z⟩

/-- The move whose every sampled position is that of `m`, mirrored through `y = 0`. -/
def move_mirror_y (m : move) : move :=
  ⟨fun move_time => mirror_y (m.position move_time)⟩

/-! ## Calls through the handle -/

/-- The function a stored callback stands for. -/
noncomputable def callback_fn :
    position_callback → rotary_stepper → move → ℝ → Option ℝ
  | position_callback.rotary_stepper_calc_position => rotary_stepper_calc_position

/-- A call of `sk->calc_position_cb(sk, m, move_time)` on the record that holds `sk`
(`container_of`); there is nothing to call when the pointer is null. -/
noncomputable def call_calc_position_cb (rs : rotary_stepper) (m : move) (move_time : ℝ) :
    Option ℝ :=
  rs.sk.calc_position_cb.bind fun cb => callback_fn cb rs m move_time

theorem fdiv_of_ne_zero (a : ℝ) {b : ℝ} (hb : b ≠ 0) : fdiv a b = some (a / b) := by
  simp [fdiv, hb]

theorem fdiv_zero (a : ℝ) : fdiv a 0 = none := by
  simp [fdiv]

theorem sqrt_of_nonneg {a : ℝ} (ha : 0 ≤ a) : sqrt a = some (Real.sqrt a) := by
  simp [sqrt, not_lt.mpr ha]

theorem sqrt_of_neg {a : ℝ} (ha : a < 0) : sqrt a = none := by
  simp [sqrt, ha]

/-- A common positive factor of both arguments does not change the angle. -/
theorem atan2_mul_pos {s : ℝ} (hs : 0 < s) (y x : ℝ) : atan2 (s * y) (s * x) = atan2 y x := by
  unfold atan2
  have h : (⟨s * x, s * y⟩ : ℂ) = (s : ℂ) * ⟨x, y⟩ := by
    apply Complex.ext <;> simp
  rw [h, Complex.arg_real_mul _ hs]

/-- The angle of the point at distance `r > 0` in direction `θ` is `θ`. -/
theorem atan2_polar {r θ : ℝ} (hr : 0 < r) (h1 : -Real.pi < θ) (h2 : θ ≤ Real.pi) :
    atan2 (r * Real.sin θ) (r * Real.cos θ) = θ := by
  unfold atan2
  have h : (⟨r * Real.cos θ, r * Real.sin θ⟩ : ℂ)
      = (r : ℂ) * (Complex.cos θ + Complex.sin θ * Complex.I) := by
    apply Complex.ext
    · simp [← Complex.ofReal_cos, ← Complex.ofReal_sin]
    · simp [← Complex.ofReal_cos, ← Complex.ofReal_sin]
  rw [h, Complex.arg_mul_cos_add_sin_mul_I hr ⟨h1, h2⟩]

/-- A point of the positive x-axis has angle zero. -/
theorem atan2_zero_left {x : ℝ} (hx : 0 ≤ x) : atan2 0 x = 0 := by
  unfold atan2
  have h : (⟨x, 0⟩ : ℂ) = (x : ℂ) := by
    apply Complex.ext <;> simp
  rw [h, Complex.arg_ofReal_of_nonneg hx]

theorem atan2_mem (y x : ℝ) : -Real.pi < atan2 y x ∧ atan2 y x ≤ Real.pi :=
  ⟨Complex.neg_pi_lt_arg _, Complex.arg_le_pi _⟩

/-- A point with `x > 0` and `y < 0` has its angle strictly between `-π/2` and `0`. -/
theorem atan2_fourth_quadrant {x y : ℝ} (hx : 0 < x) (hy : y < 0) :
    -(Real.pi / 2) < atan2 y x ∧ atan2 y x < 0 := by
  unfold atan2
  have h1 : |Complex.arg ⟨x, y⟩| < Real.pi / 2 :=
    Complex.abs_arg_lt_pi_div_two_iff.mpr (Or.inl hx)
  have h2 : Complex.arg ⟨x, y⟩ < 0 := Complex.arg_neg_iff.mpr hy
  exact ⟨(abs_lt.mp h1).1, h2⟩

/-- Enclosure of the angle of a point with `x > 0` and `y < 0`, from `sin u < u < tan u`
for the complementary angle `u`, whose tangent is `t = x / (-y)`. -/
theorem atan2_fourth_quadrant_bounds {x y : ℝ} (hx : 0 < x) (hy : y < 0) :
    x / (-y) / Real.sqrt (1 + (x / (-y)) ^ 2) - Real.pi / 2 < atan2 y x ∧
      atan2 y x < x / (-y) - Real.pi / 2 := by
  obtain ⟨hlo, hhi⟩ := atan2_fourth_quadrant hx hy
  have htan : Real.tan (atan2 y x) = y / x := by
    unfold atan2; rw [Complex.tan_arg]
  have hu0 : 0 < Real.pi / 2 - -atan2 y x := by linarith
  have hu1 : Real.pi / 2 - -atan2 y x < Real.pi / 2 := by linarith
  have htu : Real.tan (Real.pi / 2 - -atan2 y x) = x / (-y) := by
    rw [Real.tan_pi_div_two_sub, Real.tan_neg, htan]
    have hxne : x ≠ 0 := ne_of_gt hx
    have hyne : y ≠ 0 := ne_of_lt hy
    field_simp
  have hup := Real.lt_tan hu0 hu1
  rw [htu] at hup
  have hlow := Real.sin_lt hu0
  have hat : Real.arctan (x / (-y)) = Real.pi / 2 - -atan2 y x := by
    rw [← htu]; exact Real.arctan_tan (by linarith) hu1
  rw [← hat, Real.sin_arctan, hat] at hlow
  constructor <;> linarith

/-! ## The locals of the solver in closed form -/

/-- When the shoulder-local y-coordinate is non-zero, every local variable up to the
discriminant is defined, with the value the source line gives it. -/
theorem locals_defined (rs : rotary_stepper) (c : coord) (hy : sjy rs c ≠ 0) :
    ∃ i k1 k2 s d : ℝ,
      inv_sjy rs c = some i ∧ c1 rs c = some k1 ∧ c2 rs c = some k2 ∧
      scale rs c = some s ∧ discriminant rs c = some d ∧
      i * sjy rs c = 1 ∧
      k1 = 0.5 * i * (sjx rs c * sjx rs c + sjy rs c * sjy rs c + sjz rs c * sjz rs c
        + rs.arm2_diff) ∧
      k2 = sjx rs c * i ∧ s = k2 * k2 + 1 ∧ d = s * rs.upper_arm2 - k1 * k1 := by
  have hi : inv_sjy rs c = some (1 / sjy rs c) := fdiv_of_ne_zero 1 hy
  have h10 : (1.0 : ℝ) = 1 := by norm_num
  refine ⟨1 / sjy rs c, _, _, _, _, hi, ?_, ?_, ?_, ?_, ?_, rfl, rfl, rfl, rfl⟩
  · simp [c1, hi]
  · simp [c2, hi]
  · simp [scale, c2, hi, h10]
  · simp [discriminant, scale, c1, c2, hi, h10]
  · field_simp

/-- When the shoulder-local y-coordinate is zero, no local variable after it is defined. -/
theorem locals_undefined (rs : rotary_stepper) (c : coord) (hy : sjy rs c = 0) :
    inv_sjy rs c = none ∧ c1 rs c = none ∧ c2 rs c = none ∧ scale rs c = none ∧
      discriminant rs c = none ∧ sj_scaled_elbow_x rs c = none ∧
      sj_scaled_elbow_y rs c = none := by
  have hi : inv_sjy rs c = none := by simp [inv_sjy, hy, fdiv_zero]
  simp [c1, c2, scale, discriminant, sj_scaled_elbow_x, sj_scaled_elbow_y, hi]

/-- The discriminant is defined exactly when the shoulder-local y-coordinate is non-zero. -/
theorem discriminant_defined {rs : rotary_stepper} {c : coord} {d : ℝ}
    (hd : discriminant rs c = some d) : sjy rs c ≠ 0 := by
  intro hy
  rw [(locals_undefined rs c hy).2.2.2.2.1] at hd
  exact Option.noConfusion hd

/-- With a non-negative discriminant the scaled elbow and the returned angle are defined,
with the values of lines 43, 44 and 46. -/
theorem elbow_defined (rs : rotary_stepper) (c : coord) {k1 k2 s d : ℝ}
    (h1 : c1 rs c = some k1) (h2 : c2 rs c = some k2) (hs : scale rs c = some s)
    (hd : discriminant rs c = some d) (h0 : 0 ≤ d) :
    sj_scaled_elbow_x rs c = some (k1 * k2 + Real.sqrt d) ∧
      sj_scaled_elbow_y rs c = some (k1 * s - k2 * (k1 * k2 + Real.sqrt d)) := by
  have hx : sj_scaled_elbow_x rs c = some (k1 * k2 + Real.sqrt d) := by
    simp [sj_scaled_elbow_x, h1, h2, hd, sqrt_of_nonneg h0]
  refine ⟨hx, ?_⟩
  simp [sj_scaled_elbow_y, h1, h2, hs, hx]

/-- With a negative discriminant the scaled elbow is undefined. -/
theorem elbow_undefined (rs : rotary_stepper) (c : coord) {d : ℝ}
    (hd : discriminant rs c = some d) (h0 : d < 0) :
    sj_scaled_elbow_x rs c = none ∧ sj_scaled_elbow_y rs c = none := by
  have hx : sj_scaled_elbow_x rs c = none := by
    simp [sj_scaled_elbow_x, hd, sqrt_of_neg h0]
  refine ⟨hx, ?_⟩
  simp [sj_scaled_elbow_y, hx]

/-- The returned angle, from the two scaled elbow coordinates. -/
theorem calc_position_of_elbow (rs : rotary_stepper) (m : move) (move_time : ℝ) {sx sy : ℝ}
    (hx : sj_scaled_elbow_x rs (move_get_coord m move_time) = some sx)
    (hy : sj_scaled_elbow_y rs (move_get_coord m move_time) = some sy) :
    rotary_stepper_calc_position rs m move_time = some (atan2 sy sx) := by
  simp [rotary_stepper_calc_position, hx, hy]

/-! ## Fields of a constructed model -/

section alloc_fields

variable (R H a U L : ℝ)

theorem alloc_cos : (rotary_delta_stepper_alloc R H a U L).cos = Real.cos a := rfl

theorem alloc_sin : (rotary_delta_stepper_alloc R H a U L).sin = Real.sin a := rfl

theorem alloc_shoulder_radius : (rotary_delta_stepper_alloc R H a U L).shoulder_radius = R := rfl

theorem alloc_shoulder_height : (rotary_delta_stepper_alloc R H a U L).shoulder_height = H := rfl

theorem alloc_upper_arm2 : (rotary_delta_stepper_alloc R H a U L).upper_arm2 = U * U := rfl

theorem alloc_arm2_diff :
    (rotary_delta_stepper_alloc R H a U L).arm2_diff = U * U - L * L := rfl

end alloc_fields

/-! ## Algebra of the two distance constraints

Facts about real numbers, stated with the names of the locals: `a`, `b`, `e` stand for
`sjx`, `sjy`, `sjz`, `i` for `inv_sjy`, `r` for the square root of the discriminant `d`,
`U2` for `upper_arm2` and `ad` for `arm2_diff`. -/

theorem scale_pos_of_eq {k2 s : ℝ} (hs : s = k2 * k2 + 1) : 0 < s := by
  rw [hs]; nlinarith [mul_self_nonneg k2]

/-- The scaled elbow, divided by `scale`, is at squared distance `U2` from the shoulder. -/
theorem elbow_on_circle {k1 k2 s d U2 r : ℝ} (hs : s = k2 * k2 + 1)
    (hd : d = s * U2 - k1 * k1) (hr : r * r = d) :
    ((k1 * k2 + r) / s) ^ 2 + ((k1 * s - k2 * (k1 * k2 + r)) / s) ^ 2 = U2 := by
  have hpos : 0 < s := scale_pos_of_eq hs
  have hne : s ≠ 0 := ne_of_gt hpos
  have hr2 : r * r = s * U2 - k1 * k1 := by rw [hr, hd]
  field_simp
  subst hs
  linear_combination (k2 * k2 + 1) * hr2

/-- The elbow y-coordinate obeys the affine relation `ey = c1 - c2 * ex`. -/
theorem elbow_affine {k1 k2 s x : ℝ} (hs : s = k2 * k2 + 1) :
    (k1 * s - k2 * x) / s = k1 - k2 * (x / s) := by
  have hne : s ≠ 0 := ne_of_gt (scale_pos_of_eq hs)
  field_simp

/-- A point of the affine relation at squared distance `U2` from the shoulder is at squared
distance `U2 - ad` from the effector. -/
theorem affine_point_distance {a b e ad i k1 k2 U2 ex ey : ℝ} (hi : i * b = 1)
    (h1 : k1 = 0.5 * i * (a * a + b * b + e * e + ad)) (h2 : k2 = a * i)
    (hey : ey = k1 - k2 * ex) (hc : ex ^ 2 + ey ^ 2 = U2) :
    (a - ex) ^ 2 + (b - ey) ^ 2 + e ^ 2 = U2 - ad := by
  have hbk1 : 2 * (b * k1) = a * a + b * b + e * e + ad := by
    rw [h1]; linear_combination (a * a + b * b + e * e + ad) * hi
  have hbk2 : b * k2 = a := by
    rw [h2]; linear_combination a * hi
  have hbe : b * ey = b * k1 - a * ex := by
    rw [hey]; linear_combination (-ex) * hbk2
  linear_combination hc - 2 * hbe - hbk1

/-- Conversely, a point satisfying both distance constraints lies on the affine relation. -/
theorem affine_of_constraints {a b e ad i k1 k2 U2 ex ey : ℝ} (hi : i * b = 1)
    (h1 : k1 = 0.5 * i * (a * a + b * b + e * e + ad)) (h2 : k2 = a * i)
    (hc : ex ^ 2 + ey ^ 2 = U2) (hl : (a - ex) ^ 2 + (b - ey) ^ 2 + e ^ 2 = U2 - ad) :
    ey = k1 - k2 * ex := by
  have hb : b * ey = 0.5 * (a * a + b * b + e * e + ad) - a * ex := by
    linear_combination (1 / 2 : ℝ) * hc - (1 / 2 : ℝ) * hl
  have : ey = i * (b * ey) := by linear_combination (-ey) * hi
  rw [this, hb, h1, h2]; ring

/-- A point satisfying both constraints solves the quadratic: its x-coordinate differs
from `c1*c2/scale` by a square root of the discriminant, divided by `scale`. -/
theorem quadratic_of_constraints {k1 k2 s d U2 ex ey : ℝ} (hs : s = k2 * k2 + 1)
    (hd : d = s * U2 - k1 * k1) (hey : ey = k1 - k2 * ex) (hc : ex ^ 2 + ey ^ 2 = U2) :
    (s * ex - k1 * k2) ^ 2 = d := by
  subst hs hd hey
  linear_combination (k2 * k2 + 1) * hc

/-! ## The reference scenario of the specification

Shoulder radius 100, shoulder height 0, mounting angle 0, upper arm 50, lower arm 200. -/

/-- Shoulder-local coordinates of a target for the scenario model. -/
theorem scenario_local (x y z : ℝ) :
    sjx (rotary_delta_stepper_alloc 100 0 0 50 200) ⟨x, y, z⟩ = x - 100 ∧
      sjy (rotary_delta_stepper_alloc 100 0 0 50 200) ⟨x, y, z⟩ = z ∧
      sjz (rotary_delta_stepper_alloc 100 0 0 50 200) ⟨x, y, z⟩ = y := by
  simp [sjx, sjy, sjz, alloc_cos, alloc_sin, alloc_shoulder_radius, alloc_shoulder_height]

/-- Locals of the scenario model at a target on the tower axis below the shoulders. -/
theorem scenario_locals (z : ℝ) (hz : z ≠ 0) :
    c1 (rotary_delta_stepper_alloc 100 0 0 50 200) ⟨0, 0, z⟩
        = some (0.5 * (1 / z) * (10000 + z * z - 37500)) ∧
      c2 (rotary_delta_stepper_alloc 100 0 0 50 200) ⟨0, 0, z⟩ = some (-100 * (1 / z)) ∧
      scale (rotary_delta_stepper_alloc 100 0 0 50 200) ⟨0, 0, z⟩
        = some (-100 * (1 / z) * (-100 * (1 / z)) + 1) ∧
      discriminant (rotary_delta_stepper_alloc 100 0 0 50 200) ⟨0, 0, z⟩
        = some ((-100 * (1 / z) * (-100 * (1 / z)) + 1) * 2500
            - 0.5 * (1 / z) * (10000 + z * z - 37500)
              * (0.5 * (1 / z) * (10000 + z * z - 37500))) := by
  obtain ⟨hx, hy, hzz⟩ := scenario_local 0 0 z
  have hy0 : sjy (rotary_delta_stepper_alloc 100 0 0 50 200) ⟨0, 0, z⟩ ≠ 0 := by
    rw [hy]; exact hz
  obtain ⟨i, k1, k2, s, d, hi, h1, h2, hs, hd, hib, e1, e2, es, ed⟩ :=
    locals_defined _ _ hy0
  have hiz : i = 1 / z := by
    rw [hy] at hib
    field_simp
    linarith
  rw [hx, hy, hzz, alloc_arm2_diff] at e1
  rw [hx] at e2
  rw [alloc_upper_arm2] at ed
  have e1n : k1 = 0.5 * (1 / z) * (10000 + z * z - 37500) := by
    rw [e1, hiz]; ring
  have e2n : k2 = -100 * (1 / z) := by
    rw [e2, hiz]; ring
  refine ⟨by rw [h1, e1n], by rw [h2, e2n], by rw [hs, es, e2n], ?_⟩
  rw [hd, ed, es, e2n, e1n]
  norm_num

/-- The discriminant of the scenario at the target `(0, 0, -220)`. -/
theorem scenario_discriminant :
    discriminant (rotary_delta_stepper_alloc 100 0 0 50 200) ⟨0, 0, -220⟩
      = some (367975 / 484) := by
  rw [(scenario_locals (-220) (by norm_num)).2.2.2]
  norm_num

/-- The discriminant of the scenario at the far target `(0, 0, -1000)`. -/
theorem scenario_far_discriminant :
    discriminant (rotary_delta_stepper_alloc 100 0 0 50 200) ⟨0, 0, -1000⟩
      = some (-3742625 / 16) := by
  rw [(scenario_locals (-1000) (by norm_num)).2.2.2]
  norm_num

/-- At a target whose shoulder-local coordinates are `(upper_arm, -lower_arm, 0)` the
solver of a model with positive arm lengths returns the angle 0. -/
theorem angle_zero_of_home_local (shoulder_radius shoulder_height a upper_arm lower_arm : ℝ)
    (hU : 0 < upper_arm) (hL : 0 < lower_arm) (m : move) (move_time : ℝ)
    (hx : sjx (rotary_delta_stepper_alloc shoulder_radius shoulder_height a upper_arm
      lower_arm) (move_get_coord m move_time) = upper_arm)
    (hy : sjy (rotary_delta_stepper_alloc shoulder_radius shoulder_height a upper_arm
      lower_arm) (move_get_coord m move_time) = -lower_arm)
    (hz : sjz (rotary_delta_stepper_alloc shoulder_radius shoulder_height a upper_arm
      lower_arm) (move_get_coord m move_time) = 0) :
    rotary_stepper_calc_position (rotary_delta_stepper_alloc shoulder_radius
      shoulder_height a upper_arm lower_arm) m move_time = some 0 := by
  have hy0 : sjy (rotary_delta_stepper_alloc shoulder_radius shoulder_height a upper_arm
      lower_arm) (move_get_coord m move_time) ≠ 0 := by
    rw [hy]; exact neg_ne_zero.mpr (ne_of_gt hL)
  obtain ⟨i, k1, k2, s, d, hi, h1, h2, hs, hd, hib, e1, e2, es, ed⟩ :=
    locals_defined _ _ hy0
  rw [hx, hy, hz, alloc_arm2_diff] at e1
  rw [hx] at e2
  rw [alloc_upper_arm2] at ed
  have e1n : k1 = i * (upper_arm * upper_arm) := by rw [e1]; ring
  have edn : d = upper_arm * upper_arm := by rw [ed, es, e2, e1n]; ring
  have h0 : 0 ≤ d := by rw [edn]; exact mul_self_nonneg _
  obtain ⟨hsx, hsy⟩ := elbow_defined _ _ h1 h2 hs hd h0
  have hr : Real.sqrt d = upper_arm := by rw [edn]; exact Real.sqrt_mul_self (le_of_lt hU)
  have hsy0 : k1 * s - k2 * (k1 * k2 + Real.sqrt d) = 0 := by
    rw [hr, es, e2, e1n]; ring
  have hsx0 : 0 ≤ k1 * k2 + Real.sqrt d := by
    rw [hr, e2, e1n]
    have : i * (upper_arm * upper_arm) * (upper_arm * i) = (i * upper_arm) ^ 2 * upper_arm := by
      ring
    rw [this]
    positivity
  rw [calc_position_of_elbow _ m move_time hsx hsy, hsy0, atan2_zero_left hsx0]

/-- Shoulder-local coordinates of a target for the model with all lengths 1, height 0 and
mounting angle 0. -/
theorem unit_local (x y z : ℝ) :
    sjx (rotary_delta_stepper_alloc 1 0 0 1 1) ⟨x, y, z⟩ = x - 1 ∧
      sjy (rotary_delta_stepper_alloc 1 0 0 1 1) ⟨x, y, z⟩ = z ∧
      sjz (rotary_delta_stepper_alloc 1 0 0 1 1) ⟨x, y, z⟩ = y := by
  simp [sjx, sjy, sjz, alloc_cos, alloc_sin, alloc_shoulder_radius, alloc_shoulder_height]

/-- Enclosure of `sqrt 367975`. -/
theorem scenario_sqrt_bounds :
    (606.609 : ℝ) < Real.sqrt 367975 ∧ Real.sqrt 367975 < (606.61 : ℝ) := by
  constructor
  · rw [Real.lt_sqrt (by norm_num)]; norm_num
  · rw [Real.sqrt_lt' (by norm_num)]; norm_num

/-- Numerical enclosure of the angle of the reference scenario. -/
theorem scenario_angle_bounds :
    (-1.472 : ℝ) < atan2 (-(11495 + 5 * Real.sqrt 367975)) (11 * (Real.sqrt 367975 - 475)) ∧
      atan2 (-(11495 + 5 * Real.sqrt 367975)) (11 * (Real.sqrt 367975 - 475))
        < (-1.471 : ℝ) := by
  obtain ⟨hrlo, hrhi⟩ := scenario_sqrt_bounds
  have hxpos : 0 < 11 * (Real.sqrt 367975 - 475) := by linarith
  have hyneg : -(11495 + 5 * Real.sqrt 367975) < 0 := by linarith
  obtain ⟨hb1, hb2⟩ := atan2_fourth_quadrant_bounds hxpos hyneg
  have hden : 0 < - -(11495 + 5 * Real.sqrt 367975) := by linarith
  have htlo : (0.09964 : ℝ)
      < 11 * (Real.sqrt 367975 - 475) / - -(11495 + 5 * Real.sqrt 367975) := by
    rw [lt_div_iff₀ hden]; linarith
  have hthi : 11 * (Real.sqrt 367975 - 475) / - -(11495 + 5 * Real.sqrt 367975)
      < (0.09966 : ℝ) := by
    rw [div_lt_iff₀ hden]; linarith
  generalize 11 * (Real.sqrt 367975 - 475) / - -(11495 + 5 * Real.sqrt 367975) = t
    at hb1 hb2 htlo hthi
  have ht2 : t ^ 2 < 0.01 := by nlinarith
  have hsq : Real.sqrt (1 + t ^ 2) < 1.005 := by
    rw [Real.sqrt_lt' (by norm_num)]
    linarith
  have hsqpos : 0 < Real.sqrt (1 + t ^ 2) := Real.sqrt_pos.mpr (by positivity)
  have hfrac : (0.0991 : ℝ) < t / Real.sqrt (1 + t ^ 2) := by
    rw [lt_div_iff₀ hsqpos]; linarith
  have hpi1 := Real.pi_gt_d6
  have hpi2 := Real.pi_lt_d6
  constructor <;> linarith

/-! ## The claims -/

/-- Exact arithmetic only, rounding not modelled: for a model built by
`rotary_delta_stepper_alloc` (any lengths, in particular
`upper_arm > 0`) and a sampled target whose shoulder-local y is non-zero and whose
discriminant is non-negative, the scaled elbow, the scale and the returned angle are
defined, and the elbow point `(sx / scale, sy / scale)` is at distance `upper_arm` from
the shoulder and at distance `lower_arm` from the effector. -/
theorem elbow_satisfies_constraints (shoulder_radius shoulder_height angle upper_arm
    lower_arm : ℝ) (m : move) (move_time d : ℝ)
    (hy : sjy (rotary_delta_stepper_alloc shoulder_radius shoulder_height angle upper_arm
      lower_arm) (move_get_coord m move_time) ≠ 0)
    (hd : discriminant (rotary_delta_stepper_alloc shoulder_radius shoulder_height angle
      upper_arm lower_arm) (move_get_coord m move_time) = some d)
    (h0 : 0 ≤ d) :
    ∃ sx sy s : ℝ,
      sj_scaled_elbow_x (rotary_delta_stepper_alloc shoulder_radius shoulder_height angle
        upper_arm lower_arm) (move_get_coord m move_time) = some sx ∧
      sj_scaled_elbow_y (rotary_delta_stepper_alloc shoulder_radius shoulder_height angle
        upper_arm lower_arm) (move_get_coord m move_time) = some sy ∧
      scale (rotary_delta_stepper_alloc shoulder_radius shoulder_height angle upper_arm
        lower_arm) (move_get_coord m move_time) = some s ∧
      rotary_stepper_calc_position (rotary_delta_stepper_alloc shoulder_radius
        shoulder_height angle upper_arm lower_arm) m move_time = some (atan2 sy sx) ∧
      (sx / s) ^ 2 + (sy / s) ^ 2 = upper_arm ^ 2 ∧
      (sjx (rotary_delta_stepper_alloc shoulder_radius shoulder_height angle upper_arm
          lower_arm) (move_get_coord m move_time) - sx / s) ^ 2
        + (sjy (rotary_delta_stepper_alloc shoulder_radius shoulder_height angle upper_arm
          lower_arm) (move_get_coord m move_time) - sy / s) ^ 2
        + sjz (rotary_delta_stepper_alloc shoulder_radius shoulder_height angle upper_arm
          lower_arm) (move_get_coord m move_time) ^ 2 = lower_arm ^ 2 := by
  obtain ⟨i, k1, k2, s, d', hi, h1, h2, hs, hd', hib, e1, e2, es, ed⟩ :=
    locals_defined _ _ hy
  obtain rfl : d' = d := Option.some.inj (hd'.symm.trans hd)
  obtain ⟨hx, hy'⟩ := elbow_defined _ _ h1 h2 hs hd h0
  have hc := elbow_on_circle es ed (Real.mul_self_sqrt h0)
  have hl := affine_point_distance hib e1 e2 (elbow_affine es) hc
  rw [alloc_upper_arm2] at hc
  rw [alloc_upper_arm2, alloc_arm2_diff] at hl
  refine ⟨_, _, s, hx, hy', hs, calc_position_of_elbow _ m move_time hx hy', ?_, ?_⟩
  · rw [hc]; ring
  · rw [hl]; ring

/-- Exact arithmetic only: the two elbow constraints at the scenario target
`(0, 0, -220)`. -/
theorem elbow_satisfies_constraints_witness :
    ∃ sx sy s : ℝ,
      sj_scaled_elbow_x (rotary_delta_stepper_alloc 100 0 0 50 200)
        (move_get_coord ⟨fun _ => ⟨0, 0, -220⟩⟩ 0) = some sx ∧
      sj_scaled_elbow_y (rotary_delta_stepper_alloc 100 0 0 50 200)
        (move_get_coord ⟨fun _ => ⟨0, 0, -220⟩⟩ 0) = some sy ∧
      scale (rotary_delta_stepper_alloc 100 0 0 50 200)
        (move_get_coord ⟨fun _ => ⟨0, 0, -220⟩⟩ 0) = some s ∧
      rotary_stepper_calc_position (rotary_delta_stepper_alloc 100 0 0 50 200)
        ⟨fun _ => ⟨0, 0, -220⟩⟩ 0 = some (atan2 sy sx) ∧
      (sx / s) ^ 2 + (sy / s) ^ 2 = (50 : ℝ) ^ 2 ∧
      (sjx (rotary_delta_stepper_alloc 100 0 0 50 200)
          (move_get_coord ⟨fun _ => ⟨0, 0, -220⟩⟩ 0) - sx / s) ^ 2
        + (sjy (rotary_delta_stepper_alloc 100 0 0 50 200)
          (move_get_coord ⟨fun _ => ⟨0, 0, -220⟩⟩ 0) - sy / s) ^ 2
        + sjz (rotary_delta_stepper_alloc 100 0 0 50 200)
          (move_get_coord ⟨fun _ => ⟨0, 0, -220⟩⟩ 0) ^ 2 = (200 : ℝ) ^ 2 :=
  elbow_satisfies_constraints 100 0 0 50 200 ⟨fun _ => ⟨0, 0, -220⟩⟩ 0 (367975 / 484)
    (by rw [show move_get_coord ⟨fun _ => ⟨0, 0, -220⟩⟩ 0 = ⟨0, 0, -220⟩ from rfl,
          (scenario_local 0 0 (-220)).2.1]; norm_num)
    scenario_discriminant (by norm_num)

/-- C5: the solver yields no angle whenever the shoulder-local y-coordinate
`z - shoulder_height` is exactly zero or the discriminant is negative, division by zero
and the square root of a negative number being undefined. -/
theorem calc_position_undefined (rs : rotary_stepper) (m : move) (move_time : ℝ)
    (h : (move_get_coord m move_time).z - rs.shoulder_height = 0 ∨
      ∃ d : ℝ, discriminant rs (move_get_coord m move_time) = some d ∧ d < 0) :
    rotary_stepper_calc_position rs m move_time = none := by
  have hy : sj_scaled_elbow_y rs (move_get_coord m move_time) = none := by
    rcases h with h | ⟨d, hd, h0⟩
    · exact (locals_undefined rs _ h).2.2.2.2.2.2
    · exact (elbow_undefined rs _ hd h0).2
  simp [rotary_stepper_calc_position, hy]

/-- C5 at two targets of the scenario model: one level with the shoulder, one out of
reach. -/
theorem calc_position_undefined_witness :
    rotary_stepper_calc_position (rotary_delta_stepper_alloc 100 0 0 50 200)
        ⟨fun _ => ⟨30, 40, 0⟩⟩ 0 = none ∧
      rotary_stepper_calc_position (rotary_delta_stepper_alloc 100 0 0 50 200)
        ⟨fun _ => ⟨0, 0, -1000⟩⟩ 0 = none :=
  ⟨calc_position_undefined _ ⟨fun _ => ⟨30, 40, 0⟩⟩ 0
      (Or.inl (by simp [move_get_coord, alloc_shoulder_height])),
    calc_position_undefined _ ⟨fun _ => ⟨0, 0, -1000⟩⟩ 0
      (Or.inr ⟨-3742625 / 16, scenario_far_discriminant, by norm_num⟩)⟩

/-- C8: the model returned by `rotary_delta_stepper_alloc` stores the cosine and sine of
the mounting angle, the shoulder radius and height as given, the squared upper-arm length
and the difference of the squared arm lengths. -/
theorem alloc_fields (shoulder_radius shoulder_height angle upper_arm lower_arm : ℝ) :
    (rotary_delta_stepper_alloc shoulder_radius shoulder_height angle upper_arm
        lower_arm).cos = Real.cos angle ∧
      (rotary_delta_stepper_alloc shoulder_radius shoulder_height angle upper_arm
        lower_arm).sin = Real.sin angle ∧
      (rotary_delta_stepper_alloc shoulder_radius shoulder_height angle upper_arm
        lower_arm).shoulder_radius = shoulder_radius ∧
      (rotary_delta_stepper_alloc shoulder_radius shoulder_height angle upper_arm
        lower_arm).shoulder_height = shoulder_height ∧
      (rotary_delta_stepper_alloc shoulder_radius shoulder_height angle upper_arm
        lower_arm).upper_arm2 = upper_arm * upper_arm ∧
      (rotary_delta_stepper_alloc shoulder_radius shoulder_height angle upper_arm
        lower_arm).arm2_diff = upper_arm * upper_arm - lower_arm * lower_arm :=
  ⟨rfl, rfl, rfl, rfl, rfl, rfl⟩

/-- Exact arithmetic only, rounding not modelled: for a constructed model and a target
with shoulder-local y non-zero, the
discriminant is defined, and it is negative if and only if no real elbow point is at
distance `upper_arm` from the shoulder and at distance `lower_arm` from the effector. -/
theorem discriminant_neg_iff_unreachable (shoulder_radius shoulder_height angle upper_arm
    lower_arm : ℝ) (m : move) (move_time : ℝ)
    (hy : sjy (rotary_delta_stepper_alloc shoulder_radius shoulder_height angle upper_arm
      lower_arm) (move_get_coord m move_time) ≠ 0) :
    ∃ d : ℝ,
      discriminant (rotary_delta_stepper_alloc shoulder_radius shoulder_height angle
        upper_arm lower_arm) (move_get_coord m move_time) = some d ∧
      (d < 0 ↔ ¬ ∃ ex ey : ℝ, ex ^ 2 + ey ^ 2 = upper_arm ^ 2 ∧
        (sjx (rotary_delta_stepper_alloc shoulder_radius shoulder_height angle upper_arm
            lower_arm) (move_get_coord m move_time) - ex) ^ 2
          + (sjy (rotary_delta_stepper_alloc shoulder_radius shoulder_height angle
            upper_arm lower_arm) (move_get_coord m move_time) - ey) ^ 2
          + sjz (rotary_delta_stepper_alloc shoulder_radius shoulder_height angle upper_arm
            lower_arm) (move_get_coord m move_time) ^ 2 = lower_arm ^ 2) := by
  obtain ⟨i, k1, k2, s, d, hi, h1, h2, hs, hd, hib, e1, e2, es, ed⟩ :=
    locals_defined _ _ hy
  rw [alloc_upper_arm2] at ed
  rw [alloc_arm2_diff] at e1
  refine ⟨d, hd, ?_, ?_⟩
  · rintro hneg ⟨ex, ey, hc, hl⟩
    have hc' : ex ^ 2 + ey ^ 2 = upper_arm * upper_arm := by rw [hc]; ring
    have hey := affine_of_constraints hib e1 e2 hc' (by rw [hl]; ring)
    have hq := quadratic_of_constraints es ed hey hc'
    have := sq_nonneg (s * ex - k1 * k2)
    linarith
  · intro hno
    by_contra hge
    have h0 : 0 ≤ d := not_lt.mp hge
    have hc := elbow_on_circle es ed (Real.mul_self_sqrt h0)
    have hl := affine_point_distance hib e1 e2 (elbow_affine es) hc
    exact hno ⟨_, _, by rw [hc]; ring, by rw [hl]; ring⟩

/-- Exact arithmetic only: reachability at the far target `(0, 0, -1000)` of the scenario
model. -/
theorem discriminant_neg_iff_unreachable_witness :
    ∃ d : ℝ,
      discriminant (rotary_delta_stepper_alloc 100 0 0 50 200)
        (move_get_coord ⟨fun _ => ⟨0, 0, -1000⟩⟩ 0) = some d ∧
      (d < 0 ↔ ¬ ∃ ex ey : ℝ, ex ^ 2 + ey ^ 2 = (50 : ℝ) ^ 2 ∧
        (sjx (rotary_delta_stepper_alloc 100 0 0 50 200)
            (move_get_coord ⟨fun _ => ⟨0, 0, -1000⟩⟩ 0) - ex) ^ 2
          + (sjy (rotary_delta_stepper_alloc 100 0 0 50 200)
            (move_get_coord ⟨fun _ => ⟨0, 0, -1000⟩⟩ 0) - ey) ^ 2
          + sjz (rotary_delta_stepper_alloc 100 0 0 50 200)
            (move_get_coord ⟨fun _ => ⟨0, 0, -1000⟩⟩ 0) ^ 2 = (200 : ℝ) ^ 2) :=
  discriminant_neg_iff_unreachable 100 0 0 50 200 ⟨fun _ => ⟨0, 0, -1000⟩⟩ 0
    (by rw [show move_get_coord ⟨fun _ => ⟨0, 0, -1000⟩⟩ 0 = ⟨0, 0, -1000⟩ from rfl,
          (scenario_local 0 0 (-1000)).2.1]; norm_num)

/-- Exact arithmetic only, rounding not modelled: when the discriminant `d` is defined
and non-negative, the solver takes the root
with `+sqrt`: its scaled elbow x-coordinate is `c1*c2 + sqrt d`, so the elbow x-coordinate
is `(c1*c2 + sqrt d) / scale`; every elbow point satisfying both distance constraints has
an x-coordinate that is this root or the `-sqrt` root, and is at most the chosen one. -/
theorem plus_root_selected (shoulder_radius shoulder_height angle upper_arm lower_arm : ℝ)
    (m : move) (move_time d : ℝ)
    (hd : discriminant (rotary_delta_stepper_alloc shoulder_radius shoulder_height angle
      upper_arm lower_arm) (move_get_coord m move_time) = some d)
    (h0 : 0 ≤ d) :
    ∃ k1 k2 s : ℝ,
      c1 (rotary_delta_stepper_alloc shoulder_radius shoulder_height angle upper_arm
        lower_arm) (move_get_coord m move_time) = some k1 ∧
      c2 (rotary_delta_stepper_alloc shoulder_radius shoulder_height angle upper_arm
        lower_arm) (move_get_coord m move_time) = some k2 ∧
      scale (rotary_delta_stepper_alloc shoulder_radius shoulder_height angle upper_arm
        lower_arm) (move_get_coord m move_time) = some s ∧
      sj_scaled_elbow_x (rotary_delta_stepper_alloc shoulder_radius shoulder_height angle
        upper_arm lower_arm) (move_get_coord m move_time) = some (k1 * k2 + Real.sqrt d) ∧
      ∀ ex ey : ℝ, ex ^ 2 + ey ^ 2 = upper_arm ^ 2 →
        (sjx (rotary_delta_stepper_alloc shoulder_radius shoulder_height angle upper_arm
            lower_arm) (move_get_coord m move_time) - ex) ^ 2
          + (sjy (rotary_delta_stepper_alloc shoulder_radius shoulder_height angle
            upper_arm lower_arm) (move_get_coord m move_time) - ey) ^ 2
          + sjz (rotary_delta_stepper_alloc shoulder_radius shoulder_height angle upper_arm
            lower_arm) (move_get_coord m move_time) ^ 2 = lower_arm ^ 2 →
        ex ≤ (k1 * k2 + Real.sqrt d) / s ∧
          (ex = (k1 * k2 + Real.sqrt d) / s ∨ ex = (k1 * k2 - Real.sqrt d) / s) := by
  obtain ⟨i, k1, k2, s, d', hi, h1, h2, hs, hd', hib, e1, e2, es, ed⟩ :=
    locals_defined _ _ (discriminant_defined hd)
  obtain rfl : d' = d := Option.some.inj (hd'.symm.trans hd)
  rw [alloc_upper_arm2] at ed
  rw [alloc_arm2_diff] at e1
  refine ⟨k1, k2, s, h1, h2, hs, (elbow_defined _ _ h1 h2 hs hd h0).1, ?_⟩
  intro ex ey hc hl
  have hc' : ex ^ 2 + ey ^ 2 = upper_arm * upper_arm := by rw [hc]; ring
  have hey := affine_of_constraints hib e1 e2 hc' (by rw [hl]; ring)
  have hq := quadratic_of_constraints es ed hey hc'
  have hpos : 0 < s := scale_pos_of_eq es
  have hne : s ≠ 0 := ne_of_gt hpos
  have hr := Real.mul_self_sqrt h0
  have hr0 := Real.sqrt_nonneg d'
  have hprod : (s * ex - k1 * k2 - Real.sqrt d') * (s * ex - k1 * k2 + Real.sqrt d') = 0 := by
    linear_combination hq - hr
  have hroots : ex = (k1 * k2 + Real.sqrt d') / s ∨ ex = (k1 * k2 - Real.sqrt d') / s := by
    rcases mul_eq_zero.mp hprod with h | h
    · left; field_simp; linarith
    · right; field_simp; linarith
  refine ⟨?_, hroots⟩
  rcases hroots with h | h
  · exact le_of_eq h
  · rw [h]
    apply div_le_div_of_nonneg_right _ (le_of_lt hpos)
    linarith

/-- Exact arithmetic only: the two roots at the scenario target `(0, 0, -220)`. -/
theorem plus_root_selected_witness :
    ∃ k1 k2 s : ℝ,
      c1 (rotary_delta_stepper_alloc 100 0 0 50 200)
        (move_get_coord ⟨fun _ => ⟨0, 0, -220⟩⟩ 0) = some k1 ∧
      c2 (rotary_delta_stepper_alloc 100 0 0 50 200)
        (move_get_coord ⟨fun _ => ⟨0, 0, -220⟩⟩ 0) = some k2 ∧
      scale (rotary_delta_stepper_alloc 100 0 0 50 200)
        (move_get_coord ⟨fun _ => ⟨0, 0, -220⟩⟩ 0) = some s ∧
      sj_scaled_elbow_x (rotary_delta_stepper_alloc 100 0 0 50 200)
        (move_get_coord ⟨fun _ => ⟨0, 0, -220⟩⟩ 0)
          = some (k1 * k2 + Real.sqrt (367975 / 484)) ∧
      ∀ ex ey : ℝ, ex ^ 2 + ey ^ 2 = (50 : ℝ) ^ 2 →
        (sjx (rotary_delta_stepper_alloc 100 0 0 50 200)
            (move_get_coord ⟨fun _ => ⟨0, 0, -220⟩⟩ 0) - ex) ^ 2
          + (sjy (rotary_delta_stepper_alloc 100 0 0 50 200)
            (move_get_coord ⟨fun _ => ⟨0, 0, -220⟩⟩ 0) - ey) ^ 2
          + sjz (rotary_delta_stepper_alloc 100 0 0 50 200)
            (move_get_coord ⟨fun _ => ⟨0, 0, -220⟩⟩ 0) ^ 2 = (200 : ℝ) ^ 2 →
        ex ≤ (k1 * k2 + Real.sqrt (367975 / 484)) / s ∧
          (ex = (k1 * k2 + Real.sqrt (367975 / 484)) / s ∨
            ex = (k1 * k2 - Real.sqrt (367975 / 484)) / s) :=
  plus_root_selected 100 0 0 50 200 ⟨fun _ => ⟨0, 0, -220⟩⟩ 0 (367975 / 484)
    scenario_discriminant (by norm_num)

/-- Exact arithmetic only, rounding not modelled: when the discriminant is defined (so
shoulder-local y is non-zero) and
non-negative, the returned value `atan2(sj_scaled_elbow_y, sj_scaled_elbow_x)` is defined
and equals `atan2(elbowY, elbowX)` for the elbow coordinates
`elbowX = sj_scaled_elbow_x / scale` and `elbowY = c1 - c2 * elbowX`; the common factor
`scale` is at least 1. -/
theorem angle_of_true_elbow (rs : rotary_stepper) (m : move) (move_time d : ℝ)
    (hd : discriminant rs (move_get_coord m move_time) = some d) (h0 : 0 ≤ d) :
    ∃ k1 k2 s sx sy : ℝ,
      c1 rs (move_get_coord m move_time) = some k1 ∧
      c2 rs (move_get_coord m move_time) = some k2 ∧
      scale rs (move_get_coord m move_time) = some s ∧
      sj_scaled_elbow_x rs (move_get_coord m move_time) = some sx ∧
      sj_scaled_elbow_y rs (move_get_coord m move_time) = some sy ∧
      1 ≤ s ∧
      rotary_stepper_calc_position rs m move_time = some (atan2 sy sx) ∧
      atan2 sy sx = atan2 (k1 - k2 * (sx / s)) (sx / s) := by
  obtain ⟨i, k1, k2, s, d', hi, h1, h2, hs, hd', hib, e1, e2, es, ed⟩ :=
    locals_defined _ _ (discriminant_defined hd)
  obtain rfl : d' = d := Option.some.inj (hd'.symm.trans hd)
  obtain ⟨hx, hy⟩ := elbow_defined _ _ h1 h2 hs hd h0
  have hpos : 0 < s := scale_pos_of_eq es
  have hne : s ≠ 0 := ne_of_gt hpos
  refine ⟨k1, k2, s, _, _, h1, h2, hs, hx, hy, ?_, calc_position_of_elbow _ m move_time hx hy,
    ?_⟩
  · rw [es]; nlinarith [mul_self_nonneg k2]
  · have hsy : k1 * s - k2 * (k1 * k2 + Real.sqrt d')
        = s * ((k1 * s - k2 * (k1 * k2 + Real.sqrt d')) / s) := by field_simp
    have hsx : k1 * k2 + Real.sqrt d' = s * ((k1 * k2 + Real.sqrt d') / s) := by field_simp
    calc atan2 (k1 * s - k2 * (k1 * k2 + Real.sqrt d')) (k1 * k2 + Real.sqrt d')
        = atan2 (s * ((k1 * s - k2 * (k1 * k2 + Real.sqrt d')) / s))
            (s * ((k1 * k2 + Real.sqrt d') / s)) := by rw [← hsy, ← hsx]
      _ = atan2 ((k1 * s - k2 * (k1 * k2 + Real.sqrt d')) / s)
            ((k1 * k2 + Real.sqrt d') / s) := atan2_mul_pos hpos _ _
      _ = atan2 (k1 - k2 * ((k1 * k2 + Real.sqrt d') / s))
            ((k1 * k2 + Real.sqrt d') / s) := by rw [elbow_affine es]

/-- Exact arithmetic only: the angle of the true elbow at the scenario target
`(0, 0, -220)`. -/
theorem angle_of_true_elbow_witness :
    ∃ k1 k2 s sx sy : ℝ,
      c1 (rotary_delta_stepper_alloc 100 0 0 50 200)
        (move_get_coord ⟨fun _ => ⟨0, 0, -220⟩⟩ 0) = some k1 ∧
      c2 (rotary_delta_stepper_alloc 100 0 0 50 200)
        (move_get_coord ⟨fun _ => ⟨0, 0, -220⟩⟩ 0) = some k2 ∧
      scale (rotary_delta_stepper_alloc 100 0 0 50 200)
        (move_get_coord ⟨fun _ => ⟨0, 0, -220⟩⟩ 0) = some s ∧
      sj_scaled_elbow_x (rotary_delta_stepper_alloc 100 0 0 50 200)
        (move_get_coord ⟨fun _ => ⟨0, 0, -220⟩⟩ 0) = some sx ∧
      sj_scaled_elbow_y (rotary_delta_stepper_alloc 100 0 0 50 200)
        (move_get_coord ⟨fun _ => ⟨0, 0, -220⟩⟩ 0) = some sy ∧
      1 ≤ s ∧
      rotary_stepper_calc_position (rotary_delta_stepper_alloc 100 0 0 50 200)
        ⟨fun _ => ⟨0, 0, -220⟩⟩ 0 = some (atan2 sy sx) ∧
      atan2 sy sx = atan2 (k1 - k2 * (sx / s)) (sx / s) :=
  angle_of_true_elbow _ ⟨fun _ => ⟨0, 0, -220⟩⟩ 0 (367975 / 484)
    scenario_discriminant (by norm_num)

/-- The solver reads the model and the target only through the shoulder-local coordinates
and the two constants `upper_arm2` and `arm2_diff`. -/
theorem solver_congr {rs rs' : rotary_stepper} {c c' : coord} (hx : sjx rs c = sjx rs' c')
    (hy : sjy rs c = sjy rs' c') (hz : sjz rs c * sjz rs c = sjz rs' c' * sjz rs' c')
    (hu : rs.upper_arm2 = rs'.upper_arm2) (ha : rs.arm2_diff = rs'.arm2_diff) :
    sj_scaled_elbow_x rs c = sj_scaled_elbow_x rs' c' ∧
      sj_scaled_elbow_y rs c = sj_scaled_elbow_y rs' c' := by
  have hi : inv_sjy rs c = inv_sjy rs' c' := by simp only [inv_sjy, hy]
  have h1 : c1 rs c = c1 rs' c' := by simp only [c1, hi, hx, hy, hz, ha]
  have h2 : c2 rs c = c2 rs' c' := by simp only [c2, hi, hx]
  have hs : scale rs c = scale rs' c' := by simp only [scale, h2]
  have hd : discriminant rs c = discriminant rs' c' := by simp only [discriminant, hs, h1, hu]
  have hex : sj_scaled_elbow_x rs c = sj_scaled_elbow_x rs' c' := by
    simp only [sj_scaled_elbow_x, h1, h2, hd]
  refine ⟨hex, ?_⟩
  simp only [sj_scaled_elbow_y, h1, h2, hs, hex]

/-- Exact arithmetic only, rounding not modelled: round trip on the `+sqrt` side.  For a
model with positive upper arm, a joint angle `theta` in
`(-π, π]` and a target with shoulder-local y non-zero that forward geometry allows for
`theta` (the elbow at `upper_arm * (cos theta, sin theta)` is at distance `lower_arm`
from the target), the solver returns `theta` provided the elbow lies on the side of the
`+sqrt` root: `sjy * (ex0 * sjy - ey0 * sjx) ≥ 0`. -/
theorem round_trip_plus_branch (shoulder_radius shoulder_height a upper_arm lower_arm
    theta : ℝ) (hU : 0 < upper_arm) (h1 : -Real.pi < theta) (h2 : theta ≤ Real.pi)
    (m : move) (move_time : ℝ)
    (hy : sjy (rotary_delta_stepper_alloc shoulder_radius shoulder_height a upper_arm
      lower_arm) (move_get_coord m move_time) ≠ 0)
    (hfw : (sjx (rotary_delta_stepper_alloc shoulder_radius shoulder_height a upper_arm
          lower_arm) (move_get_coord m move_time) - upper_arm * Real.cos theta) ^ 2
        + (sjy (rotary_delta_stepper_alloc shoulder_radius shoulder_height a upper_arm
          lower_arm) (move_get_coord m move_time) - upper_arm * Real.sin theta) ^ 2
        + sjz (rotary_delta_stepper_alloc shoulder_radius shoulder_height a upper_arm
          lower_arm) (move_get_coord m move_time) ^ 2 = lower_arm ^ 2)
    (hbr : 0 ≤ sjy (rotary_delta_stepper_alloc shoulder_radius shoulder_height a upper_arm
        lower_arm) (move_get_coord m move_time)
      * (upper_arm * Real.cos theta
          * sjy (rotary_delta_stepper_alloc shoulder_radius shoulder_height a upper_arm
            lower_arm) (move_get_coord m move_time)
        - upper_arm * Real.sin theta
          * sjx (rotary_delta_stepper_alloc shoulder_radius shoulder_height a upper_arm
            lower_arm) (move_get_coord m move_time))) :
    rotary_stepper_calc_position (rotary_delta_stepper_alloc shoulder_radius shoulder_height
      a upper_arm lower_arm) m move_time = some theta := by
  obtain ⟨i, k1, k2, s, d, hi, hk1, hk2, hs, hd, hib, e1, e2, es, ed⟩ :=
    locals_defined _ _ hy
  rw [alloc_upper_arm2] at ed
  rw [alloc_arm2_diff] at e1
  set b := sjy (rotary_delta_stepper_alloc shoulder_radius shoulder_height a upper_arm
    lower_arm) (move_get_coord m move_time) with hb
  set a' := sjx (rotary_delta_stepper_alloc shoulder_radius shoulder_height a upper_arm
    lower_arm) (move_get_coord m move_time) with ha'
  have hsc := Real.sin_sq_add_cos_sq theta
  have hc : (upper_arm * Real.cos theta) ^ 2 + (upper_arm * Real.sin theta) ^ 2
      = upper_arm * upper_arm := by
    linear_combination (upper_arm * upper_arm) * hsc
  have hey := affine_of_constraints hib e1 e2 hc (by rw [hfw]; ring)
  have hq := quadratic_of_constraints es ed hey hc
  have h0 : 0 ≤ d := by rw [← hq]; exact sq_nonneg _
  have hpos : 0 < s := scale_pos_of_eq es
  -- the branch quantity is `sjy ^ 2` times the signed root of the discriminant
  have hside : b * (upper_arm * Real.cos theta * b - upper_arm * Real.sin theta * a')
      = b ^ 2 * (s * (upper_arm * Real.cos theta) - k1 * k2) := by
    have hbk2 : b * k2 = a' := by rw [e2]; linear_combination a' * hib
    rw [hey, es, ← hbk2]
    ring
  have hb2 : 0 < b ^ 2 := by positivity
  have hroot : 0 ≤ s * (upper_arm * Real.cos theta) - k1 * k2 := by
    rw [hside] at hbr
    by_contra hneg
    have := mul_neg_of_pos_of_neg hb2 (not_le.mp hneg)
    linarith
  have hr : Real.sqrt d = s * (upper_arm * Real.cos theta) - k1 * k2 := by
    rw [← hq]; exact Real.sqrt_sq hroot
  obtain ⟨hsx, hsy⟩ := elbow_defined _ _ hk1 hk2 hs hd h0
  have hsxv : k1 * k2 + Real.sqrt d = s * upper_arm * Real.cos theta := by
    rw [hr]; ring
  have hsyv : k1 * s - k2 * (k1 * k2 + Real.sqrt d) = s * upper_arm * Real.sin theta := by
    rw [hsxv]
    linear_combination (-s) * hey
  rw [calc_position_of_elbow _ m move_time hsx hsy, hsyv, hsxv,
    atan2_polar (mul_pos hpos hU) h1 h2]

/-- Exact arithmetic only: round trip for the model with all lengths 1 and the target
`(1, 0, -2)`,
reached with the upper arm pointing straight down, `theta = -π/2`. -/
theorem round_trip_plus_branch_witness :
    rotary_stepper_calc_position (rotary_delta_stepper_alloc 1 0 0 1 1)
      ⟨fun _ => ⟨1, 0, -2⟩⟩ 0 = some (-(Real.pi / 2)) :=
  round_trip_plus_branch 1 0 0 1 1 (-(Real.pi / 2)) (by norm_num)
    (by linarith [Real.pi_pos]) (by linarith [Real.pi_pos]) ⟨fun _ => ⟨1, 0, -2⟩⟩ 0
    (by rw [show move_get_coord ⟨fun _ => ⟨1, 0, -2⟩⟩ 0 = ⟨1, 0, -2⟩ from rfl,
          (unit_local 1 0 (-2)).2.1]; norm_num)
    (by rw [show move_get_coord ⟨fun _ => ⟨1, 0, -2⟩⟩ 0 = ⟨1, 0, -2⟩ from rfl,
          (unit_local 1 0 (-2)).1, (unit_local 1 0 (-2)).2.1, (unit_local 1 0 (-2)).2.2,
          Real.cos_neg, Real.sin_neg, Real.cos_pi_div_two, Real.sin_pi_div_two]; norm_num)
    (by rw [show move_get_coord ⟨fun _ => ⟨1, 0, -2⟩⟩ 0 = ⟨1, 0, -2⟩ from rfl,
          (unit_local 1 0 (-2)).1, (unit_local 1 0 (-2)).2.1,
          Real.cos_neg, Real.sin_neg, Real.cos_pi_div_two, Real.sin_pi_div_two]; norm_num)

/-- Round trip fails on the side of the `-sqrt` root, in exact arithmetic and in binary64
alike (every operation is exact at this input): for the model with mounting angle 0 and
all lengths 1, the target
`(2, 0, -1)` is allowed by forward geometry for `theta = -π/2` (elbow at `(0, -1)`, at
distance 1 from the target, shoulder-local y equal to `-1`), yet the solver returns the
angle 0 of the other elbow configuration. -/
theorem round_trip_counterexample :
    (0 : ℝ) < 1 ∧ -Real.pi < -(Real.pi / 2) ∧ -(Real.pi / 2) ≤ Real.pi ∧
      sjy (rotary_delta_stepper_alloc 1 0 0 1 1)
        (move_get_coord ⟨fun _ => ⟨2, 0, -1⟩⟩ 0) ≠ 0 ∧
      (sjx (rotary_delta_stepper_alloc 1 0 0 1 1) (move_get_coord ⟨fun _ => ⟨2, 0, -1⟩⟩ 0)
            - 1 * Real.cos (-(Real.pi / 2))) ^ 2
          + (sjy (rotary_delta_stepper_alloc 1 0 0 1 1)
              (move_get_coord ⟨fun _ => ⟨2, 0, -1⟩⟩ 0)
            - 1 * Real.sin (-(Real.pi / 2))) ^ 2
          + sjz (rotary_delta_stepper_alloc 1 0 0 1 1)
              (move_get_coord ⟨fun _ => ⟨2, 0, -1⟩⟩ 0) ^ 2 = (1 : ℝ) ^ 2 ∧
      rotary_stepper_calc_position (rotary_delta_stepper_alloc 1 0 0 1 1)
        ⟨fun _ => ⟨2, 0, -1⟩⟩ 0 = some 0 ∧
      rotary_stepper_calc_position (rotary_delta_stepper_alloc 1 0 0 1 1)
        ⟨fun _ => ⟨2, 0, -1⟩⟩ 0 ≠ some (-(Real.pi / 2)) := by
  have hc : move_get_coord ⟨fun _ => ⟨2, 0, -1⟩⟩ 0 = ⟨2, 0, -1⟩ := rfl
  obtain ⟨hx, hy, hz⟩ := unit_local 2 0 (-1)
  have hres : rotary_stepper_calc_position (rotary_delta_stepper_alloc 1 0 0 1 1)
      ⟨fun _ => ⟨2, 0, -1⟩⟩ 0 = some 0 :=
    angle_zero_of_home_local 1 0 0 1 1 (by norm_num) (by norm_num) _ 0
      (by rw [hc, hx]; norm_num) (by rw [hc, hy]) (by rw [hc, hz])
  refine ⟨by norm_num, by linarith [Real.pi_pos], by linarith [Real.pi_pos], ?_, ?_, hres, ?_⟩
  · rw [hc, hy]; norm_num
  · rw [hc, hx, hy, hz, Real.cos_neg, Real.sin_neg, Real.cos_pi_div_two,
      Real.sin_pi_div_two]
    norm_num
  · rw [hres]
    intro h
    have := Option.some.inj h
    linarith [Real.pi_pos]

/-- C10: for the model with shoulder radius 100, shoulder height 0, mounting angle 0,
upper arm 50 and lower arm 200 and the target `(0, 0, -220)`, the shoulder-local
coordinates are `(-100, -220, 0)`, `c1 = -47.5`, `c2 = 5/11`, the discriminant is
`367975/484 > 0`, the elbow point is at distance 50 from the shoulder and 200 from the
effector, and the returned angle is
`atan2(-(11495 + 5*sqrt 367975), 11*(sqrt 367975 - 475))`, which lies strictly between
`-π/2` and `0` and within `0.0005` of `-1.4715`. -/
theorem concrete_scenario (move_time : ℝ) :
    sjx (rotary_delta_stepper_alloc 100 0 0 50 200)
        (move_get_coord ⟨fun _ => ⟨0, 0, -220⟩⟩ move_time) = -100 ∧
      sjy (rotary_delta_stepper_alloc 100 0 0 50 200)
        (move_get_coord ⟨fun _ => ⟨0, 0, -220⟩⟩ move_time) = -220 ∧
      sjz (rotary_delta_stepper_alloc 100 0 0 50 200)
        (move_get_coord ⟨fun _ => ⟨0, 0, -220⟩⟩ move_time) = 0 ∧
      c1 (rotary_delta_stepper_alloc 100 0 0 50 200)
        (move_get_coord ⟨fun _ => ⟨0, 0, -220⟩⟩ move_time) = some (-47.5) ∧
      c2 (rotary_delta_stepper_alloc 100 0 0 50 200)
        (move_get_coord ⟨fun _ => ⟨0, 0, -220⟩⟩ move_time) = some (5 / 11) ∧
      discriminant (rotary_delta_stepper_alloc 100 0 0 50 200)
        (move_get_coord ⟨fun _ => ⟨0, 0, -220⟩⟩ move_time) = some (367975 / 484) ∧
      (0 : ℝ) < 367975 / 484 ∧
      (∃ sx sy s : ℝ,
        sj_scaled_elbow_x (rotary_delta_stepper_alloc 100 0 0 50 200)
          (move_get_coord ⟨fun _ => ⟨0, 0, -220⟩⟩ move_time) = some sx ∧
        sj_scaled_elbow_y (rotary_delta_stepper_alloc 100 0 0 50 200)
          (move_get_coord ⟨fun _ => ⟨0, 0, -220⟩⟩ move_time) = some sy ∧
        scale (rotary_delta_stepper_alloc 100 0 0 50 200)
          (move_get_coord ⟨fun _ => ⟨0, 0, -220⟩⟩ move_time) = some s ∧
        (sx / s) ^ 2 + (sy / s) ^ 2 = (50 : ℝ) ^ 2 ∧
        (-100 - sx / s) ^ 2 + (-220 - sy / s) ^ 2 + (0 : ℝ) ^ 2 = (200 : ℝ) ^ 2) ∧
      rotary_stepper_calc_position (rotary_delta_stepper_alloc 100 0 0 50 200)
          ⟨fun _ => ⟨0, 0, -220⟩⟩ move_time
        = some (atan2 (-(11495 + 5 * Real.sqrt 367975)) (11 * (Real.sqrt 367975 - 475))) ∧
      -(Real.pi / 2)
        < atan2 (-(11495 + 5 * Real.sqrt 367975)) (11 * (Real.sqrt 367975 - 475)) ∧
      atan2 (-(11495 + 5 * Real.sqrt 367975)) (11 * (Real.sqrt 367975 - 475)) < 0 ∧
      |atan2 (-(11495 + 5 * Real.sqrt 367975)) (11 * (Real.sqrt 367975 - 475)) - -1.4715|
        < 0.0005 := by
  have hc : move_get_coord ⟨fun _ => ⟨0, 0, -220⟩⟩ move_time = ⟨0, 0, -220⟩ := rfl
  rw [hc]
  obtain ⟨hx, hy, hz⟩ := scenario_local 0 0 (-220)
  obtain ⟨h1, h2, hs, -⟩ := scenario_locals (-220) (by norm_num)
  have h1n : c1 (rotary_delta_stepper_alloc 100 0 0 50 200) ⟨0, 0, -220⟩ = some (-47.5) := by
    rw [h1]; norm_num
  have h2n : c2 (rotary_delta_stepper_alloc 100 0 0 50 200) ⟨0, 0, -220⟩ = some (5 / 11) := by
    rw [h2]; norm_num
  have hsn : scale (rotary_delta_stepper_alloc 100 0 0 50 200) ⟨0, 0, -220⟩
      = some (146 / 121) := by
    rw [hs]; norm_num
  have hd := scenario_discriminant
  have h0 : (0 : ℝ) ≤ 367975 / 484 := by norm_num
  obtain ⟨hsx, hsy⟩ := elbow_defined _ _ h1n h2n hsn hd h0
  -- the square root of the discriminant
  have hr : Real.sqrt (367975 / 484) = Real.sqrt 367975 / 22 := by
    rw [Real.sqrt_div (by norm_num), show (484 : ℝ) = 22 ^ 2 by norm_num,
      Real.sqrt_sq (by norm_num)]
  obtain ⟨hrlo, hrhi⟩ := scenario_sqrt_bounds
  -- distances of the elbow point
  have es : (146 / 121 : ℝ) = 5 / 11 * (5 / 11) + 1 := by norm_num
  have ed : (367975 / 484 : ℝ) = 146 / 121 * 2500 - -47.5 * -47.5 := by norm_num
  have hcirc := elbow_on_circle es ed (Real.mul_self_sqrt h0)
  have hib : (-1 / 220 : ℝ) * -220 = 1 := by norm_num
  have ek1 : (-47.5 : ℝ)
      = 0.5 * (-1 / 220) * (-100 * -100 + -220 * -220 + 0 * 0 + -37500) := by norm_num
  have ek2 : (5 / 11 : ℝ) = -100 * (-1 / 220) := by norm_num
  have hlow := affine_point_distance hib ek1 ek2 (elbow_affine es) hcirc
  -- the two arguments of atan2, up to the common factor 1/242
  have hxs : (-47.5 : ℝ) * (5 / 11) + Real.sqrt (367975 / 484)
      = 1 / 242 * (11 * (Real.sqrt 367975 - 475)) := by
    rw [hr]; ring
  have hys : (-47.5 : ℝ) * (146 / 121) - 5 / 11 * (-47.5 * (5 / 11) + Real.sqrt (367975 / 484))
      = 1 / 242 * -(11495 + 5 * Real.sqrt 367975) := by
    rw [hr]; ring
  have hxpos : 0 < 11 * (Real.sqrt 367975 - 475) := by linarith
  have hyneg : -(11495 + 5 * Real.sqrt 367975) < 0 := by linarith
  obtain ⟨hq1, hq2⟩ := atan2_fourth_quadrant hxpos hyneg
  obtain ⟨hn1, hn2⟩ := scenario_angle_bounds
  refine ⟨by rw [hx]; norm_num, hy, hz, h1n, h2n, hd, by norm_num,
    ⟨_, _, _, hsx, hsy, hsn, by rw [hcirc]; norm_num, by rw [hlow]; norm_num⟩, ?_, hq1, hq2, ?_⟩
  · rw [calc_position_of_elbow _ ⟨fun _ => ⟨0, 0, -220⟩⟩ move_time hsx hsy, hys, hxs,
      atan2_mul_pos (by norm_num)]
  · rw [abs_lt]
    constructor <;> linarith

/-- C11: whatever the five geometric inputs are, the model returned by
`rotary_delta_stepper_alloc` has `active_flags = AF_X | AF_Y | AF_Z`, the flags of the
three Cartesian axes, and its position callback is `rotary_stepper_calc_position`: a call
through the handle is a call of that function. -/
theorem alloc_handle (shoulder_radius shoulder_height angle upper_arm lower_arm : ℝ) :
    (rotary_delta_stepper_alloc shoulder_radius shoulder_height angle upper_arm
        lower_arm).sk.active_flags = AF_X ||| AF_Y ||| AF_Z ∧
      (rotary_delta_stepper_alloc shoulder_radius shoulder_height angle upper_arm
        lower_arm).sk.calc_position_cb
          = some position_callback.rotary_stepper_calc_position ∧
      ∀ (m : move) (move_time : ℝ),
        call_calc_position_cb (rotary_delta_stepper_alloc shoulder_radius shoulder_height
            angle upper_arm lower_arm) m move_time
          = rotary_stepper_calc_position (rotary_delta_stepper_alloc shoulder_radius
            shoulder_height angle upper_arm lower_arm) m move_time :=
  ⟨rfl, rfl, fun _ _ => rfl⟩

/-- Mirroring a point through the x-axis negates its angle, except on the negative
x-axis, where the angle stays `π`. -/
theorem atan2_neg (y x : ℝ) :
    atan2 (-y) x = if atan2 y x = Real.pi then Real.pi else -atan2 y x := by
  unfold atan2
  have h : (⟨x, -y⟩ : ℂ) = (starRingEnd ℂ) ⟨x, y⟩ := by
    apply Complex.ext <;> simp
  rw [h, Complex.arg_conj]

/-- A point at distance `r > 0` from the origin is `r * (cos, sin)` of its angle. -/
theorem atan2_polar_inv {x y r : ℝ} (hr : 0 < r) (h : x ^ 2 + y ^ 2 = r ^ 2) :
    x = r * Real.cos (atan2 y x) ∧ y = r * Real.sin (atan2 y x) := by
  unfold atan2
  have habs : Complex.abs ⟨x, y⟩ = r := by
    rw [Complex.abs_apply, Complex.normSq_mk,
      show x * x + y * y = r ^ 2 by rw [← h]; ring, Real.sqrt_sq (le_of_lt hr)]
  have hne : (⟨x, y⟩ : ℂ) ≠ 0 := by
    intro h0
    rw [h0, map_zero] at habs
    exact (ne_of_gt hr) habs.symm
  have hrne : r ≠ 0 := ne_of_gt hr
  rw [Complex.cos_arg hne, Complex.sin_arg, habs]
  constructor <;> field_simp

/-- The two arguments of `atan2` are both zero only at distance zero. -/
theorem not_both_zero_of_sq_pos {x y n : ℝ} (h : x ^ 2 + y ^ 2 = n) (hn : 0 < n) :
    ¬ (x = 0 ∧ y = 0) := by
  rintro ⟨rfl, rfl⟩
  norm_num at h
  linarith

/-- The side of the chosen elbow: `(ex*sjy - ey*sjx) / sjy` is the square root `r` that
line 43 adds. -/
theorem chosen_elbow_side {a b i k1 k2 s r : ℝ} (hb : b ≠ 0) (hi : i * b = 1)
    (h2 : k2 = a * i) (hs : s = k2 * k2 + 1) :
    ((k1 * k2 + r) / s * b - (k1 * s - k2 * (k1 * k2 + r)) / s * a) / b = r := by
  have hne : s ≠ 0 := ne_of_gt (scale_pos_of_eq hs)
  have ha : a = b * k2 := by rw [h2]; linear_combination (-a) * hi
  rw [ha]
  field_simp
  rw [hs]
  ring

/-- The squared norm of the scaled elbow is `scale^2 * upper_arm2`. -/
theorem scaled_elbow_norm {k1 k2 s d U2 r : ℝ} (hs : s = k2 * k2 + 1)
    (hd : d = s * U2 - k1 * k1) (hr : r * r = d) :
    (k1 * k2 + r) ^ 2 + (k1 * s - k2 * (k1 * k2 + r)) ^ 2 = s ^ 2 * U2 := by
  have hr2 : r * r = s * U2 - k1 * k1 := by rw [hr, hd]
  subst hs
  linear_combination (k2 * k2 + 1) * hr2

/-- For a target that forward geometry allows for the joint angle `theta`, the solver
returns `theta` exactly when the elbow of `theta` is on the side of the `+sqrt` root. -/
theorem returns_theta_iff_side (rs : rotary_stepper) (U L theta : ℝ)
    (hu : rs.upper_arm2 = U * U) (ha : rs.arm2_diff = U * U - L * L) (hU : 0 < U)
    (h1 : -Real.pi < theta) (h2 : theta ≤ Real.pi) (m : move) (move_time : ℝ)
    (hy : sjy rs (move_get_coord m move_time) ≠ 0)
    (hfw : (sjx rs (move_get_coord m move_time) - U * Real.cos theta) ^ 2
        + (sjy rs (move_get_coord m move_time) - U * Real.sin theta) ^ 2
        + sjz rs (move_get_coord m move_time) ^ 2 = L ^ 2) :
    rotary_stepper_calc_position rs m move_time = some theta ↔
      0 ≤ sjy rs (move_get_coord m move_time)
        * (U * Real.cos theta * sjy rs (move_get_coord m move_time)
          - U * Real.sin theta * sjx rs (move_get_coord m move_time)) := by
  obtain ⟨i, k1, k2, s, d, hi, hk1, hk2, hs, hd, hib, e1, e2, es, ed⟩ :=
    locals_defined _ _ hy
  rw [hu] at ed
  rw [ha] at e1
  generalize sjy rs (move_get_coord m move_time) = b at hy hfw hib e1 ⊢
  generalize sjx rs (move_get_coord m move_time) = a' at hfw e1 e2 ⊢
  have hsc := Real.sin_sq_add_cos_sq theta
  have hc : (U * Real.cos theta) ^ 2 + (U * Real.sin theta) ^ 2 = U * U := by
    linear_combination (U * U) * hsc
  have hey := affine_of_constraints hib e1 e2 hc (by rw [hfw]; ring)
  have hq := quadratic_of_constraints es ed hey hc
  have h0 : 0 ≤ d := by rw [← hq]; exact sq_nonneg _
  have hpos : 0 < s := scale_pos_of_eq es
  have hside : b * (U * Real.cos theta * b - U * Real.sin theta * a')
      = b ^ 2 * (s * (U * Real.cos theta) - k1 * k2) := by
    have hbk2 : b * k2 = a' := by rw [e2]; linear_combination a' * hib
    rw [hey, es, ← hbk2]
    ring
  have hb2 : 0 < b ^ 2 := by positivity
  obtain ⟨hsx, hsy⟩ := elbow_defined _ _ hk1 hk2 hs hd h0
  rw [calc_position_of_elbow _ m move_time hsx hsy, hside]
  constructor
  · intro h
    have hθ : atan2 (k1 * s - k2 * (k1 * k2 + Real.sqrt d)) (k1 * k2 + Real.sqrt d) = theta :=
      Option.some.inj h
    have hnorm := scaled_elbow_norm es ed (Real.mul_self_sqrt h0)
    have hpol := (atan2_polar_inv (mul_pos hpos hU) (by rw [hnorm]; ring)).1
    rw [hθ] at hpol
    have hr : Real.sqrt d = s * (U * Real.cos theta) - k1 * k2 := by
      linear_combination hpol
    rw [← hr]
    exact mul_nonneg (le_of_lt hb2) (Real.sqrt_nonneg d)
  · intro hbr
    have hroot : 0 ≤ s * (U * Real.cos theta) - k1 * k2 := by
      by_contra hneg
      have := mul_neg_of_pos_of_neg hb2 (not_le.mp hneg)
      linarith
    have hr : Real.sqrt d = s * (U * Real.cos theta) - k1 * k2 := by
      rw [← hq]; exact Real.sqrt_sq hroot
    have hsxv : k1 * k2 + Real.sqrt d = s * U * Real.cos theta := by
      rw [hr]; ring
    have hsyv : k1 * s - k2 * (k1 * k2 + Real.sqrt d) = s * U * Real.sin theta := by
      rw [hsxv]
      linear_combination (-s) * hey
    rw [hsyv, hsxv, atan2_polar (mul_pos hpos hU) h1 h2]

/-- Exact arithmetic only, rounding not modelled: the side of the chosen elbow.  For a
constructed model with positive upper arm and a target with shoulder-local
y non-zero, the discriminant `d` is defined; when `d ≥ 0` the chosen elbow
`(ex, ey) = (sx / scale, sy / scale)` satisfies `(ex*sjy - ey*sjx) / sjy = sqrt d ≥ 0`,
hence `sjy * (ex*sjy - ey*sjx) ≥ 0`; and for every joint angle `theta` in `(-π, π]` for
which forward geometry allows the target, with elbow
`(ex0, ey0) = upper_arm * (cos theta, sin theta)`, the solver returns `theta` if and only
if `sjy * (ex0*sjy - ey0*sjx) ≥ 0`. -/
theorem branch_characterisation (shoulder_radius shoulder_height a upper_arm lower_arm : ℝ)
    (hU : 0 < upper_arm) (m : move) (move_time : ℝ)
    (hy : sjy (rotary_delta_stepper_alloc shoulder_radius shoulder_height a upper_arm lower_arm)
      (move_get_coord m move_time) ≠ 0) :
    ∃ d : ℝ,
      discriminant (rotary_delta_stepper_alloc shoulder_radius shoulder_height a upper_arm lower_arm)
        (move_get_coord m move_time) = some d ∧
      (0 ≤ d → ∃ sx sy s : ℝ,
        sj_scaled_elbow_x (rotary_delta_stepper_alloc shoulder_radius shoulder_height a upper_arm lower_arm)
          (move_get_coord m move_time) = some sx ∧
        sj_scaled_elbow_y (rotary_delta_stepper_alloc shoulder_radius shoulder_height a upper_arm lower_arm)
          (move_get_coord m move_time) = some sy ∧
        scale (rotary_delta_stepper_alloc shoulder_radius shoulder_height a upper_arm lower_arm)
          (move_get_coord m move_time) = some s ∧
        (sx / s * sjy (rotary_delta_stepper_alloc shoulder_radius shoulder_height a upper_arm lower_arm)
              (move_get_coord m move_time)
            - sy / s * sjx (rotary_delta_stepper_alloc shoulder_radius shoulder_height a upper_arm lower_arm)
              (move_get_coord m move_time))
          / sjy (rotary_delta_stepper_alloc shoulder_radius shoulder_height a upper_arm lower_arm)
              (move_get_coord m move_time) = Real.sqrt d ∧
        0 ≤ Real.sqrt d ∧
        0 ≤ sjy (rotary_delta_stepper_alloc shoulder_radius shoulder_height a upper_arm lower_arm)
            (move_get_coord m move_time)
          * (sx / s * sjy (rotary_delta_stepper_alloc shoulder_radius shoulder_height a upper_arm lower_arm)
              (move_get_coord m move_time)
            - sy / s * sjx (rotary_delta_stepper_alloc shoulder_radius shoulder_height a upper_arm lower_arm)
              (move_get_coord m move_time))) ∧
      ∀ theta : ℝ, -Real.pi < theta → theta ≤ Real.pi →
        (sjx (rotary_delta_stepper_alloc shoulder_radius shoulder_height a upper_arm lower_arm)
              (move_get_coord m move_time) - upper_arm * Real.cos theta) ^ 2
          + (sjy (rotary_delta_stepper_alloc shoulder_radius shoulder_height a upper_arm lower_arm)
              (move_get_coord m move_time) - upper_arm * Real.sin theta) ^ 2
          + sjz (rotary_delta_stepper_alloc shoulder_radius shoulder_height a upper_arm lower_arm)
              (move_get_coord m move_time) ^ 2 = lower_arm ^ 2 →
        (rotary_stepper_calc_position (rotary_delta_stepper_alloc shoulder_radius shoulder_height a upper_arm lower_arm)
            m move_time = some theta ↔
          0 ≤ sjy (rotary_delta_stepper_alloc shoulder_radius shoulder_height a upper_arm lower_arm)
              (move_get_coord m move_time)
            * (upper_arm * Real.cos theta
                * sjy (rotary_delta_stepper_alloc shoulder_radius shoulder_height a upper_arm lower_arm)
                  (move_get_coord m move_time)
              - upper_arm * Real.sin theta
                * sjx (rotary_delta_stepper_alloc shoulder_radius shoulder_height a upper_arm lower_arm)
                  (move_get_coord m move_time))) := by
  obtain ⟨i, k1, k2, s, d, hi, hk1, hk2, hs, hd, hib, e1, e2, es, ed⟩ :=
    locals_defined _ _ hy
  refine ⟨d, hd, ?_, ?_⟩
  · intro h0
    obtain ⟨hsx, hsy⟩ := elbow_defined _ _ hk1 hk2 hs hd h0
    have hside := @chosen_elbow_side _ _ _ k1 _ _ (Real.sqrt d) hy hib e2 es
    refine ⟨_, _, s, hsx, hsy, hs, hside, Real.sqrt_nonneg d, ?_⟩
    have hmul := (div_eq_iff hy).mp hside
    rw [hmul]
    have := mul_nonneg (mul_self_nonneg (sjy (rotary_delta_stepper_alloc shoulder_radius shoulder_height a upper_arm lower_arm)
      (move_get_coord m move_time))) (Real.sqrt_nonneg d)
    linarith
  · intro theta h1 h2 hfw
    exact returns_theta_iff_side _ upper_arm lower_arm theta rfl rfl hU h1 h2 m move_time
      hy hfw

/-- Exact arithmetic only: the side of the chosen elbow for the model with all lengths 1
at the target `(1, 0, -2)`. -/
theorem branch_characterisation_witness :
    ∃ d : ℝ,
      discriminant (rotary_delta_stepper_alloc 1 0 0 1 1)
        (move_get_coord ⟨fun _ => ⟨1, 0, -2⟩⟩ 0) = some d ∧
      (0 ≤ d → ∃ sx sy s : ℝ,
        sj_scaled_elbow_x (rotary_delta_stepper_alloc 1 0 0 1 1)
          (move_get_coord ⟨fun _ => ⟨1, 0, -2⟩⟩ 0) = some sx ∧
        sj_scaled_elbow_y (rotary_delta_stepper_alloc 1 0 0 1 1)
          (move_get_coord ⟨fun _ => ⟨1, 0, -2⟩⟩ 0) = some sy ∧
        scale (rotary_delta_stepper_alloc 1 0 0 1 1)
          (move_get_coord ⟨fun _ => ⟨1, 0, -2⟩⟩ 0) = some s ∧
        (sx / s * sjy (rotary_delta_stepper_alloc 1 0 0 1 1)
              (move_get_coord ⟨fun _ => ⟨1, 0, -2⟩⟩ 0)
            - sy / s * sjx (rotary_delta_stepper_alloc 1 0 0 1 1)
              (move_get_coord ⟨fun _ => ⟨1, 0, -2⟩⟩ 0))
          / sjy (rotary_delta_stepper_alloc 1 0 0 1 1)
              (move_get_coord ⟨fun _ => ⟨1, 0, -2⟩⟩ 0) = Real.sqrt d ∧
        0 ≤ Real.sqrt d ∧
        0 ≤ sjy (rotary_delta_stepper_alloc 1 0 0 1 1)
            (move_get_coord ⟨fun _ => ⟨1, 0, -2⟩⟩ 0)
          * (sx / s * sjy (rotary_delta_stepper_alloc 1 0 0 1 1)
              (move_get_coord ⟨fun _ => ⟨1, 0, -2⟩⟩ 0)
            - sy / s * sjx (rotary_delta_stepper_alloc 1 0 0 1 1)
              (move_get_coord ⟨fun _ => ⟨1, 0, -2⟩⟩ 0))) ∧
      ∀ theta : ℝ, -Real.pi < theta → theta ≤ Real.pi →
        (sjx (rotary_delta_stepper_alloc 1 0 0 1 1)
              (move_get_coord ⟨fun _ => ⟨1, 0, -2⟩⟩ 0) - 1 * Real.cos theta) ^ 2
          + (sjy (rotary_delta_stepper_alloc 1 0 0 1 1)
              (move_get_coord ⟨fun _ => ⟨1, 0, -2⟩⟩ 0) - 1 * Real.sin theta) ^ 2
          + sjz (rotary_delta_stepper_alloc 1 0 0 1 1)
              (move_get_coord ⟨fun _ => ⟨1, 0, -2⟩⟩ 0) ^ 2 = (1 : ℝ) ^ 2 →
        (rotary_stepper_calc_position (rotary_delta_stepper_alloc 1 0 0 1 1)
            ⟨fun _ => ⟨1, 0, -2⟩⟩ 0 = some theta ↔
          0 ≤ sjy (rotary_delta_stepper_alloc 1 0 0 1 1)
              (move_get_coord ⟨fun _ => ⟨1, 0, -2⟩⟩ 0)
            * (1 * Real.cos theta
                * sjy (rotary_delta_stepper_alloc 1 0 0 1 1)
                  (move_get_coord ⟨fun _ => ⟨1, 0, -2⟩⟩ 0)
              - 1 * Real.sin theta
                * sjx (rotary_delta_stepper_alloc 1 0 0 1 1)
                  (move_get_coord ⟨fun _ => ⟨1, 0, -2⟩⟩ 0))) :=
  branch_characterisation 1 0 0 1 1 (by norm_num) ⟨fun _ => ⟨1, 0, -2⟩⟩ 0
    (by rw [show move_get_coord ⟨fun _ => ⟨1, 0, -2⟩⟩ 0 = ⟨1, 0, -2⟩ from rfl,
          (unit_local 1 0 (-2)).2.1]; norm_num)

/-- The result is undefined as soon as the scaled elbow y-coordinate is. -/
theorem calc_position_of_no_elbow (rs : rotary_stepper) (m : move) (move_time : ℝ)
    (hy : sj_scaled_elbow_y rs (move_get_coord m move_time) = none) :
    rotary_stepper_calc_position rs m move_time = none := by
  simp [rotary_stepper_calc_position, hy]

/-- The scaled elbow of a target mirrored through the shoulder's horizontal plane: the
x-coordinate is kept and the y-coordinate negated, both being defined for the mirror
image exactly when they are for the target. -/
theorem mirror_z_elbow (rs : rotary_stepper) (c : coord) :
    sj_scaled_elbow_x rs (mirror_z rs.shoulder_height c) = sj_scaled_elbow_x rs c ∧
      sj_scaled_elbow_y rs (mirror_z rs.shoulder_height c)
        = (sj_scaled_elbow_y rs c).map fun sy => -sy := by
  have hx : sjx rs (mirror_z rs.shoulder_height c) = sjx rs c := rfl
  have hz : sjz rs (mirror_z rs.shoulder_height c) = sjz rs c := rfl
  have hy : sjy rs (mirror_z rs.shoulder_height c) = -sjy rs c := by
    simp only [sjy, mirror_z]; ring
  by_cases hb : sjy rs c = 0
  · have hb' : sjy rs (mirror_z rs.shoulder_height c) = 0 := by rw [hy, hb, neg_zero]
    obtain ⟨-, -, -, -, -, h5, h6⟩ := locals_undefined rs c hb
    obtain ⟨-, -, -, -, -, h5', h6'⟩ := locals_undefined rs _ hb'
    rw [h5, h6, h5', h6']
    exact ⟨rfl, rfl⟩
  · have hb' : sjy rs (mirror_z rs.shoulder_height c) ≠ 0 := by
      rw [hy]; exact neg_ne_zero.mpr hb
    obtain ⟨i, k1, k2, s, d, hi, h1, h2, hs, hd, hib, e1, e2, es, ed⟩ :=
      locals_defined rs c hb
    obtain ⟨i', k1', k2', s', d', hi', h1', h2', hs', hd', hib', e1', e2', es', ed'⟩ :=
      locals_defined rs _ hb'
    rw [hx, hy, hz] at e1'
    rw [hx] at e2'
    rw [hy] at hib'
    have hii : i' = -i := by
      have h : i' * sjy rs c = -1 := by linarith
      have : i' = i' * (i * sjy rs c) := by rw [hib, mul_one]
      rw [this]
      linear_combination i * h
    have hk1 : k1' = -k1 := by rw [e1', e1, hii]; ring
    have hk2 : k2' = -k2 := by rw [e2', e2, hii]; ring
    have hss : s' = s := by rw [es', es, hk2]; ring
    have hdd : d' = d := by rw [ed', ed, hss, hk1]; ring
    rw [hk1] at h1'
    rw [hk2] at h2'
    rw [hss] at hs'
    rw [hdd] at hd'
    by_cases h0 : 0 ≤ d
    · obtain ⟨hsx, hsy⟩ := elbow_defined rs c h1 h2 hs hd h0
      obtain ⟨hsx', hsy'⟩ := elbow_defined rs _ h1' h2' hs' hd' h0
      rw [hsx, hsy, hsx', hsy']
      refine ⟨by congr 1; ring, ?_⟩
      simp only [Option.map_some']
      congr 1
      ring
    · obtain ⟨hsx, hsy⟩ := elbow_undefined rs c hd (not_le.mp h0)
      obtain ⟨hsx', hsy'⟩ := elbow_undefined rs _ hd' (not_le.mp h0)
      rw [hsx, hsy, hsx', hsy']
      exact ⟨rfl, rfl⟩

/-- C14: the solver applied to the target mirrored through the shoulder's horizontal
plane, `(x, y, 2*shoulder_height - z)`, is defined exactly when it is defined at
`(x, y, z)` and returns the negated angle, except that an angle of exactly `π` stays `π`;
so the two results agree only when the angle is `0` or `π`. -/
theorem vertical_mirror_antisymmetry (rs : rotary_stepper) (m : move) (move_time : ℝ) :
    rotary_stepper_calc_position rs (move_mirror_z rs.shoulder_height m) move_time
        = (rotary_stepper_calc_position rs m move_time).map
          (fun angle => if angle = Real.pi then Real.pi else -angle) ∧
      (rotary_stepper_calc_position rs (move_mirror_z rs.shoulder_height m) move_time = none ↔
        rotary_stepper_calc_position rs m move_time = none) ∧
      ∀ angle : ℝ, rotary_stepper_calc_position rs m move_time = some angle →
        rotary_stepper_calc_position rs (move_mirror_z rs.shoulder_height m) move_time
          = some angle →
        angle = 0 ∨ angle = Real.pi := by
  have hc : move_get_coord (move_mirror_z rs.shoulder_height m) move_time
      = mirror_z rs.shoulder_height (move_get_coord m move_time) := rfl
  obtain ⟨hx, hy⟩ := mirror_z_elbow rs (move_get_coord m move_time)
  have key : rotary_stepper_calc_position rs (move_mirror_z rs.shoulder_height m) move_time
      = (rotary_stepper_calc_position rs m move_time).map
        (fun angle => if angle = Real.pi then Real.pi else -angle) := by
    simp only [rotary_stepper_calc_position, hc, hx, hy]
    cases hsy : sj_scaled_elbow_y rs (move_get_coord m move_time) with
    | none => rfl
    | some sy =>
      cases hsx : sj_scaled_elbow_x rs (move_get_coord m move_time) with
      | none => rfl
      | some sx => simp [atan2_neg]
  refine ⟨key, ?_, ?_⟩
  · rw [key]; simp
  · intro angle h h'
    rw [key, h] at h'
    have h'' : (if angle = Real.pi then Real.pi else -angle) = angle := Option.some.inj h'
    by_cases hp : angle = Real.pi
    · exact Or.inr hp
    · left
      rw [if_neg hp] at h''
      linarith

/-- Exact arithmetic only, rounding not modelled: for a constructed model with
`upper_arm ≠ 0` and a target with shoulder-local y
non-zero and non-negative discriminant `d`, the division `1. / sjy` and the square root
are defined, the two arguments of `atan2` have squared norm
`scale^2 * upper_arm2 > 0`, so they are not both zero, and the returned angle is defined
and lies in `(-π, π]`. -/
theorem solve_well_defined (shoulder_radius shoulder_height angle upper_arm lower_arm : ℝ)
    (hU : upper_arm ≠ 0) (m : move) (move_time d : ℝ)
    (hy : sjy (rotary_delta_stepper_alloc shoulder_radius shoulder_height angle upper_arm lower_arm)
      (move_get_coord m move_time) ≠ 0)
    (hd : discriminant (rotary_delta_stepper_alloc shoulder_radius shoulder_height angle upper_arm lower_arm)
      (move_get_coord m move_time) = some d)
    (h0 : 0 ≤ d) :
    ∃ i r s sx sy theta : ℝ,
      inv_sjy (rotary_delta_stepper_alloc shoulder_radius shoulder_height angle upper_arm lower_arm)
        (move_get_coord m move_time) = some i ∧
      sqrt d = some r ∧
      scale (rotary_delta_stepper_alloc shoulder_radius shoulder_height angle upper_arm lower_arm)
        (move_get_coord m move_time) = some s ∧
      sj_scaled_elbow_x (rotary_delta_stepper_alloc shoulder_radius shoulder_height angle upper_arm lower_arm)
        (move_get_coord m move_time) = some sx ∧
      sj_scaled_elbow_y (rotary_delta_stepper_alloc shoulder_radius shoulder_height angle upper_arm lower_arm)
        (move_get_coord m move_time) = some sy ∧
      sx ^ 2 + sy ^ 2
        = s ^ 2 * (rotary_delta_stepper_alloc shoulder_radius shoulder_height angle upper_arm lower_arm).upper_arm2 ∧
      0 < s ^ 2 * (rotary_delta_stepper_alloc shoulder_radius shoulder_height angle upper_arm lower_arm).upper_arm2 ∧
      ¬ (sx = 0 ∧ sy = 0) ∧
      rotary_stepper_calc_position (rotary_delta_stepper_alloc shoulder_radius shoulder_height angle upper_arm lower_arm)
        m move_time = some theta ∧
      theta = atan2 sy sx ∧ -Real.pi < theta ∧ theta ≤ Real.pi := by
  obtain ⟨i, k1, k2, s, d', hi, h1, h2, hs, hd', hib, e1, e2, es, ed⟩ :=
    locals_defined _ _ hy
  obtain rfl : d' = d := Option.some.inj (hd'.symm.trans hd)
  obtain ⟨hsx, hsy⟩ := elbow_defined _ _ h1 h2 hs hd h0
  have hnorm := scaled_elbow_norm es ed (Real.mul_self_sqrt h0)
  have hpos : 0 < s ^ 2 * (rotary_delta_stepper_alloc shoulder_radius shoulder_height angle upper_arm lower_arm).upper_arm2 := by
    rw [alloc_upper_arm2]
    exact mul_pos (pow_pos (scale_pos_of_eq es) 2) (mul_self_pos.mpr hU)
  exact ⟨i, Real.sqrt d', s, _, _, _, hi, sqrt_of_nonneg h0, hs, hsx, hsy, hnorm, hpos,
    not_both_zero_of_sq_pos hnorm hpos, calc_position_of_elbow _ m move_time hsx hsy, rfl,
    (atan2_mem _ _).1, (atan2_mem _ _).2⟩

/-- Exact arithmetic only: well-definedness at the scenario target `(0, 0, -220)`. -/
theorem solve_well_defined_witness :
    ∃ i r s sx sy theta : ℝ,
      inv_sjy (rotary_delta_stepper_alloc 100 0 0 50 200)
        (move_get_coord ⟨fun _ => ⟨0, 0, -220⟩⟩ 0) = some i ∧
      sqrt (367975 / 484) = some r ∧
      scale (rotary_delta_stepper_alloc 100 0 0 50 200)
        (move_get_coord ⟨fun _ => ⟨0, 0, -220⟩⟩ 0) = some s ∧
      sj_scaled_elbow_x (rotary_delta_stepper_alloc 100 0 0 50 200)
        (move_get_coord ⟨fun _ => ⟨0, 0, -220⟩⟩ 0) = some sx ∧
      sj_scaled_elbow_y (rotary_delta_stepper_alloc 100 0 0 50 200)
        (move_get_coord ⟨fun _ => ⟨0, 0, -220⟩⟩ 0) = some sy ∧
      sx ^ 2 + sy ^ 2
        = s ^ 2 * (rotary_delta_stepper_alloc 100 0 0 50 200).upper_arm2 ∧
      0 < s ^ 2 * (rotary_delta_stepper_alloc 100 0 0 50 200).upper_arm2 ∧
      ¬ (sx = 0 ∧ sy = 0) ∧
      rotary_stepper_calc_position (rotary_delta_stepper_alloc 100 0 0 50 200)
        ⟨fun _ => ⟨0, 0, -220⟩⟩ 0 = some theta ∧
      theta = atan2 sy sx ∧ -Real.pi < theta ∧ theta ≤ Real.pi :=
  solve_well_defined 100 0 0 50 200 (by norm_num) ⟨fun _ => ⟨0, 0, -220⟩⟩ 0 (367975 / 484)
    (by rw [show move_get_coord ⟨fun _ => ⟨0, 0, -220⟩⟩ 0 = ⟨0, 0, -220⟩ from rfl,
          (scenario_local 0 0 (-220)).2.1]; norm_num)
    scenario_discriminant (by norm_num)

/-- C16: the result depends on `sjz` only through its square: for every model, two
sampled targets with the same `sjx` and `sjy` and opposite `sjz` give the same result,
an angle or nothing; in particular, for mounting angle 0, the targets `(x, y, z)` and
`(x, -y, z)` do. -/
theorem side_mirror_symmetry :
    (∀ (rs : rotary_stepper) (m m' : move) (move_time move_time' : ℝ),
      sjx rs (move_get_coord m' move_time') = sjx rs (move_get_coord m move_time) →
      sjy rs (move_get_coord m' move_time') = sjy rs (move_get_coord m move_time) →
      sjz rs (move_get_coord m' move_time') = -sjz rs (move_get_coord m move_time) →
      rotary_stepper_calc_position rs m' move_time'
        = rotary_stepper_calc_position rs m move_time) ∧
      ∀ (shoulder_radius shoulder_height upper_arm lower_arm : ℝ) (m : move)
        (move_time : ℝ),
        rotary_stepper_calc_position (rotary_delta_stepper_alloc shoulder_radius
            shoulder_height 0 upper_arm lower_arm) (move_mirror_y m) move_time
          = rotary_stepper_calc_position (rotary_delta_stepper_alloc shoulder_radius
            shoulder_height 0 upper_arm lower_arm) m move_time := by
  have general : ∀ (rs : rotary_stepper) (m m' : move) (move_time move_time' : ℝ),
      sjx rs (move_get_coord m' move_time') = sjx rs (move_get_coord m move_time) →
      sjy rs (move_get_coord m' move_time') = sjy rs (move_get_coord m move_time) →
      sjz rs (move_get_coord m' move_time') = -sjz rs (move_get_coord m move_time) →
      rotary_stepper_calc_position rs m' move_time'
        = rotary_stepper_calc_position rs m move_time := by
    intro rs m m' move_time move_time' hx hy hz
    obtain ⟨hex, hey⟩ := solver_congr hx hy (by rw [hz]; ring) rfl rfl
    simp only [rotary_stepper_calc_position, hex, hey]
  refine ⟨general, ?_⟩
  intro shoulder_radius shoulder_height upper_arm lower_arm m move_time
  apply general
  · simp [sjx, move_get_coord, move_mirror_y, mirror_y, alloc_cos, alloc_sin]
  · rfl
  · simp [sjz, move_get_coord, move_mirror_y, mirror_y, alloc_cos, alloc_sin]

/-- C16 for the scenario model: the targets `(30, 40, -220)` and `(30, -40, -220)`. -/
theorem side_mirror_symmetry_witness :
    rotary_stepper_calc_position (rotary_delta_stepper_alloc 100 0 0 50 200)
        ⟨fun _ => ⟨30, -40, -220⟩⟩ 0
      = rotary_stepper_calc_position (rotary_delta_stepper_alloc 100 0 0 50 200)
        ⟨fun _ => ⟨30, 40, -220⟩⟩ 0 :=
  side_mirror_symmetry.1 _ ⟨fun _ => ⟨30, 40, -220⟩⟩ ⟨fun _ => ⟨30, -40, -220⟩⟩ 0 0
    (by rw [show move_get_coord ⟨fun _ => ⟨30, -40, -220⟩⟩ 0 = ⟨30, -40, -220⟩ from rfl,
          show move_get_coord ⟨fun _ => ⟨30, 40, -220⟩⟩ 0 = ⟨30, 40, -220⟩ from rfl,
          (scenario_local 30 (-40) (-220)).1, (scenario_local 30 40 (-220)).1])
    (by rw [show move_get_coord ⟨fun _ => ⟨30, -40, -220⟩⟩ 0 = ⟨30, -40, -220⟩ from rfl,
          show move_get_coord ⟨fun _ => ⟨30, 40, -220⟩⟩ 0 = ⟨30, 40, -220⟩ from rfl,
          (scenario_local 30 (-40) (-220)).2.1, (scenario_local 30 40 (-220)).2.1])
    (by rw [show move_get_coord ⟨fun _ => ⟨30, -40, -220⟩⟩ 0 = ⟨30, -40, -220⟩ from rfl,
          show move_get_coord ⟨fun _ => ⟨30, 40, -220⟩⟩ 0 = ⟨30, 40, -220⟩ from rfl,
          (scenario_local 30 (-40) (-220)).2.2, (scenario_local 30 40 (-220)).2.2])

end RotaryDelta
